import Mathlib

/-!
Shallow embedding of the Pokemon Emerald save-file parser core
(`src/lib/parser/core-wasm/src/{utils,types,save_parser,pokemon}.rs`).

Byte buffers are modelled as `List Nat` (each element a byte value `< 256`);
machine-integer wraparound is made explicit with `% 2 ^ w`.  Fallible Rust
functions returning `Result<_, JsError>` are modelled with `Except SaveError`;
the distinct `JsError` messages of the source are mapped one-to-one onto the
constructors of `SaveError`.
-/

namespace PokemonSave

/-- Error taxonomy of the parser.  Each constructor corresponds to one
`JsError::new(...)` message in the Rust source:
`inputTooSmall` = "Save file too small", `noSaveData` = "No save data loaded",
`missingBlock` = "SaveBlock2 sector (ID 0) not found",
`partyCountOutOfRange` = "Invalid party count", and
`pokemonTooSmall` = "Pokemon data must be at least 100 bytes". -/
inductive SaveError where
  | inputTooSmall
  | noSaveData
  | missingBlock
  | partyCountOutOfRange
  | pokemonTooSmall
  deriving DecidableEq, Repr

/-- Rust `read_u16_le` (utils.rs): little-endian u16 at `offset`, or 0 when the
two bytes would not fit in the buffer. -/
def read_u16_le (bytes : List Nat) (offset : Nat) : Nat :=
  if offset + 2 ≤ bytes.length then
    bytes.getD offset 0 + 256 * bytes.getD (offset + 1) 0
  else 0

/-- Rust `read_u32_le` (utils.rs): little-endian u32 at `offset`, or 0 when the
four bytes would not fit in the buffer. -/
def read_u32_le (bytes : List Nat) (offset : Nat) : Nat :=
  if offset + 4 ≤ bytes.length then
    bytes.getD offset 0 + 256 * bytes.getD (offset + 1) 0 +
      65536 * bytes.getD (offset + 2) 0 + 16777216 * bytes.getD (offset + 3) 0
  else 0

/-- Rust `write_u16_le` (utils.rs): store a u16 little-endian at `offset`;
out-of-bounds writes are silently dropped. -/
def write_u16_le (bytes : List Nat) (offset : Nat) (value : Nat) : List Nat :=
  if offset + 2 ≤ bytes.length then
    (bytes.set offset (value % 256)).set (offset + 1) (value / 256 % 256)
  else bytes

/-- Rust `write_u32_le` (utils.rs): store a u32 little-endian at `offset`;
out-of-bounds writes are silently dropped. -/
def write_u32_le (bytes : List Nat) (offset : Nat) (value : Nat) : List Nat :=
  if offset + 4 ≤ bytes.length then
    ((((bytes.set offset (value % 256)).set (offset + 1) (value / 256 % 256)).set
      (offset + 2) (value / 65536 % 256)).set (offset + 3) (value / 16777216 % 256))
  else bytes

/-- The per-chunk accumulation loop of `calculate_sector_checksum`: consume the
buffer in 4-byte chunks interpreted as little-endian u32, adding with u32
wraparound; a trailing chunk shorter than 4 bytes is ignored (the Rust loop
checks `chunk.len() == 4`). -/
def checksumWords : List Nat → Nat
  | b0 :: b1 :: b2 :: b3 :: rest =>
      (b0 + 256 * b1 + 65536 * b2 + 16777216 * b3 + checksumWords rest) % 4294967296
  | _ => 0

/-- Rust `calculate_sector_checksum` (utils.rs): wraparound u32 sum of the
little-endian 32-bit words, folded by adding the high 16 bits to the low
16 bits, masked to 16 bits (the final `as u16` cast). -/
def calculate_sector_checksum (sector_data : List Nat) : Nat :=
  let checksum := checksumWords sector_data
  (checksum / 65536 + checksum % 65536) % 65536

/-- Constant `VANILLA_EMERALD_SIGNATURE = 0x08012025` (types.rs). -/
def VANILLA_EMERALD_SIGNATURE : Nat := 134291493

/-- Constant `SECTOR_SIZE = 4096` (types.rs). -/
def SECTOR_SIZE : Nat := 4096

/-- Constant `SECTOR_DATA_SIZE = 3968` (types.rs). -/
def SECTOR_DATA_SIZE : Nat := 3968

/-- Constant `POKEMON_SIZE = 100` (types.rs). -/
def POKEMON_SIZE : Nat := 100

/-- Rust struct `SectorInfo` (types.rs): footer fields plus the validity flag. -/
structure SectorInfo where
  id : Nat
  checksum : Nat
  counter : Nat
  valid : Bool
  deriving DecidableEq, Repr

/-- The 3968-byte data region of physical sector `i` within the raw image:
`&save_data[sector_start..sector_start + SECTOR_DATA_SIZE]`. -/
def sectorData (save_data : List Nat) (i : Nat) : List Nat :=
  (save_data.drop (i * SECTOR_SIZE)).take SECTOR_DATA_SIZE

/-- Rust `SaveParser::get_sector_info_internal` (save_parser.rs): read the
12-byte footer at the end of physical sector `sector_index`; zeroed-invalid
when the buffer is empty or the footer does not fit; invalid on signature
mismatch; otherwise valid iff the recomputed checksum of the 3968-byte data
region equals the stored checksum. -/
def get_sector_info_internal (save_data : List Nat) (sector_index : Nat) : SectorInfo :=
  if save_data = [] then ⟨0, 0, 0, false⟩
  else
    let footer_offset := sector_index * SECTOR_SIZE + SECTOR_SIZE - 12
    if footer_offset + 12 > save_data.length then ⟨0, 0, 0, false⟩
    else
      let sector_id := read_u16_le save_data footer_offset
      let checksum := read_u16_le save_data (footer_offset + 2)
      let signature := read_u32_le save_data (footer_offset + 4)
      let counter := read_u32_le save_data (footer_offset + 8)
      if signature ≠ VANILLA_EMERALD_SIGNATURE then ⟨sector_id, checksum, counter, false⟩
      else
        let calculated := calculate_sector_checksum (sectorData save_data sector_index)
        ⟨sector_id, checksum, counter, calculated = checksum⟩

/-- Rust constant `GBA_CHAR_MAP` (utils.rs): the fixed byte-to-character table,
in source order.  The apostrophe, the double quote and the null character are
written via `Char.ofNat` (codes 39, 34, 0). -/
def GBA_CHAR_MAP : List (Nat × Char) :=
  [(0x00, ' '), (0xA1, '0'), (0xA2, '1'), (0xA3, '2'), (0xA4, '3'), (0xA5, '4'),
   (0xA6, '5'), (0xA7, '6'), (0xA8, '7'), (0xA9, '8'), (0xAA, '9'), (0xBB, 'A'),
   (0xBC, 'B'), (0xBD, 'C'), (0xBE, 'D'), (0xBF, 'E'), (0xC0, 'F'), (0xC1, 'G'),
   (0xC2, 'H'), (0xC3, 'I'), (0xC4, 'J'), (0xC5, 'K'), (0xC6, 'L'), (0xC7, 'M'),
   (0xC8, 'N'), (0xC9, 'O'), (0xCA, 'P'), (0xCB, 'Q'), (0xCC, 'R'), (0xCD, 'S'),
   (0xCE, 'T'), (0xCF, 'U'), (0xD0, 'V'), (0xD1, 'W'), (0xD2, 'X'), (0xD3, 'Y'),
   (0xD4, 'Z'), (0xD5, 'a'), (0xD6, 'b'), (0xD7, 'c'), (0xD8, 'd'), (0xD9, 'e'),
   (0xDA, 'f'), (0xDB, 'g'), (0xDC, 'h'), (0xDD, 'i'), (0xDE, 'j'), (0xDF, 'k'),
   (0xE0, 'l'), (0xE1, 'm'), (0xE2, 'n'), (0xE3, 'o'), (0xE4, 'p'), (0xE5, 'q'),
   (0xE6, 'r'), (0xE7, 's'), (0xE8, 't'), (0xE9, 'u'), (0xEA, 'v'), (0xEB, 'w'),
   (0xEC, 'x'), (0xED, 'y'), (0xEE, 'z'), (0x34, '!'), (0x35, '?'), (0x36, '.'),
   (0x37, '-'), (0x38, '·'), (0x39, '…'), (0x3A, Char.ofNat 34), (0x3B, Char.ofNat 34),
   (0x3C, Char.ofNat 39), (0x3D, Char.ofNat 39), (0x3E, '♂'), (0x3F, '♀'),
   (0x51, '/'), (0x54, ','), (0x55, '×'),
   (0x79, '+'), (0x7A, '%'), (0x7B, '('), (0x7C, ')'), (0x85, '&'), (0x68, ':'),
   (0x69, ';'), (0x6A, '['), (0x6B, ']'), (0x2D, '<'), (0x2E, '>'),
   (0x50, ' '), (0xFF, Char.ofNat 0)]

/-- Trailing-`0xFF` count of `find_string_end` (utils.rs): the Rust loop walks
the bytes in reverse and counts while the byte equals `0xFF`. -/
def trailingFFs (bytes : List Nat) : Nat :=
  (bytes.reverse.takeWhile (fun b => b == 255)).length

/-- Inner loop of the garbage scan in `find_string_end` (utils.rs): walking the
bytes after a `0xFF`, report true on the first byte in `0x01..=0x0F`; stop with
false on the first byte that is neither `0xFF` nor `0x00`; run off the end
with false. -/
def garbageFollows : List Nat → Bool
  | [] => false
  | b :: rest =>
      if 0 < b ∧ b < 16 then true
      else if b ≠ 255 ∧ b ≠ 0 then false
      else garbageFollows rest

/-- Outer loop of the garbage scan in `find_string_end` (utils.rs): the first
index `i` whose byte is `0xFF`, has a successor (`i + 1 < len`), and whose
suffix triggers `garbageFollows`. -/
def findGarbage : List Nat → Option Nat
  | [] => none
  | b :: rest =>
      if b = 255 ∧ rest ≠ [] ∧ garbageFollows rest then some 0
      else (findGarbage rest).map (· + 1)

/-- Rust `find_string_end` (utils.rs): if the buffer ends in more than two
`0xFF` bytes, the logical end is where that padding starts; otherwise the
garbage scan decides; otherwise the full length. -/
def find_string_end (bytes : List Nat) : Nat :=
  let t := trailingFFs bytes
  if t > 2 then bytes.length - t
  else
    match findGarbage bytes with
    | some i => i
    | none => bytes.length

/-- Decode one byte through `GBA_CHAR_MAP`, keeping the Rust skip rules of
`bytes_to_gba_string`: an unmapped byte contributes nothing, and so does the
entry for the null character. -/
def decodeByte (b : Nat) : Option Char :=
  match GBA_CHAR_MAP.find? (fun p => p.1 == b) with
  | some p => if p.2 = Char.ofNat 0 then none else some p.2
  | none => none

/-- Whitespace predicate for the Rust `str::trim` step.  Rust trims Unicode
whitespace; every character `bytes_to_gba_string` can produce comes from
`GBA_CHAR_MAP`, whose only whitespace character is the plain space, so the
model checks the ASCII whitespace set. -/
def isWhitespace (c : Char) : Bool :=
  c == ' ' || c == Char.ofNat 9 || c == Char.ofNat 10 || c == Char.ofNat 13

/-- Model of Rust `str::trim`: drop whitespace from both ends. -/
def rustTrim (s : List Char) : List Char :=
  ((s.dropWhile isWhitespace).reverse.dropWhile isWhitespace).reverse

/-- Rust `bytes_to_gba_string` (utils.rs): map every byte before the logical
end through the table, dropping unmapped and terminator bytes, then trim. -/
def bytes_to_gba_string (bytes : List Nat) : List Char :=
  rustTrim ((bytes.take (find_string_end bytes)).filterMap decodeByte)

/-- Encode one character through `GBA_CHAR_MAP` as `gba_string_to_bytes` does:
the byte of the first entry carrying that character, `0x00` when unmapped. -/
def encodeChar (c : Char) : Nat :=
  match GBA_CHAR_MAP.find? (fun p => p.2 == c) with
  | some p => p.1
  | none => 0

/-- Rust `gba_string_to_bytes` (utils.rs): a buffer of `len` bytes prefilled
with the padding byte `0xFF`; position `i` receives the encoding of the `i`-th
character while characters remain and `i < len`.  The Rust loop writes into
`vec![0xFF; length]` at successive indices; this recursion produces the same
buffer. -/
def gba_string_to_bytes : List Char → Nat → List Nat
  | _, 0 => []
  | [], len + 1 => 255 :: gba_string_to_bytes [] len
  | c :: cs, len + 1 => encodeChar c :: gba_string_to_bytes cs len

/-- Constant `NATURES` (types.rs), in source order. -/
def NATURES : List String :=
  ["Hardy", "Lonely", "Brave", "Adamant", "Naughty",
   "Bold", "Docile", "Relaxed", "Impish", "Lax",
   "Timid", "Hasty", "Serious", "Jolly", "Naive",
   "Modest", "Mild", "Quiet", "Bashful", "Rash",
   "Calm", "Gentle", "Sassy", "Careful", "Quirky"]

/-- Rust `get_pokemon_nature` (utils.rs): index `personality % 25` into
`NATURES`. -/
def get_pokemon_nature (personality : Nat) : String :=
  NATURES.getD (personality % 25) ""

/-- Rust `get_shiny_value` (utils.rs): XOR of the four 16-bit halves of the
personality and trainer id. -/
def get_shiny_value (personality ot_id : Nat) : Nat :=
  Nat.xor (Nat.xor (personality / 65536 % 65536) (personality % 65536))
    (Nat.xor (ot_id / 65536 % 65536) (ot_id % 65536))

/-- Rust `is_pokemon_shiny` (utils.rs): shiny value strictly below 8. -/
def is_pokemon_shiny (personality ot_id : Nat) : Bool :=
  get_shiny_value personality ot_id < 8

/-- Rust `calculate_hp_stat` (utils.rs).  All arithmetic is u32 (no overflow
for u16/u8 inputs); the final `as u16` cast truncates modulo `2 ^ 16`. -/
def calculate_hp_stat (base iv ev level : Nat) : Nat :=
  ((2 * base + iv + ev / 4) * level / 100 + level + 10) % 65536

/-- Rust `calculate_stat` (utils.rs).  The source multiplies by an `f32`
nature modifier drawn from `{1.1, 0.9, 1.0}` and casts with `as u16`; the
spec directs that the multiplication be read as exact rational arithmetic, so
the modifier is modelled as `ℚ`.  A Rust float-to-integer `as` cast saturates,
hence the `min 65535`. -/
def calculate_stat (base iv ev level : Nat) (nature_modifier : ℚ) : Nat :=
  let stat := (2 * base + iv + ev / 4) * level / 100 + 5
  min 65535 ⌊(stat : ℚ) * nature_modifier⌋₊

/-- The boosted/lowered stat-index pair of `get_nature_modifier` (utils.rs),
one `(increased_stat, decreased_stat)` entry per non-neutral nature; `(0, 0)`
for neutral or unknown natures. -/
def nature_effects (nature : String) : Nat × Nat :=
  match nature with
  | "Lonely" => (1, 2) | "Brave" => (1, 3) | "Adamant" => (1, 4) | "Naughty" => (1, 5)
  | "Bold" => (2, 1) | "Relaxed" => (2, 3) | "Impish" => (2, 4) | "Lax" => (2, 5)
  | "Timid" => (3, 1) | "Hasty" => (3, 2) | "Jolly" => (3, 4) | "Naive" => (3, 5)
  | "Modest" => (4, 1) | "Mild" => (4, 2) | "Quiet" => (4, 3) | "Rash" => (4, 5)
  | "Calm" => (5, 1) | "Gentle" => (5, 2) | "Sassy" => (5, 3) | "Careful" => (5, 4)
  | _ => (0, 0)

/-- Rust `get_nature_modifier` (utils.rs): `1.1` on the boosted index, `0.9`
on the lowered index, `1.0` otherwise.  The `f32` constants are modelled as
the rationals the spec prescribes. -/
def get_nature_modifier (nature : String) (stat_index : Nat) : ℚ :=
  if stat_index = (nature_effects nature).1 then 11 / 10
  else if stat_index = (nature_effects nature).2 then 9 / 10
  else 1

/-- Rust struct `Pokemon` (pokemon.rs): an independently owned raw byte
buffer. -/
structure Pokemon where
  raw_bytes : List Nat
  deriving DecidableEq, Repr

namespace Pokemon

/-- Offsets of `PokemonOffsets` (types.rs). -/
def PERSONALITY : Nat := 0x00
def OT_ID : Nat := 0x04
def NICKNAME : Nat := 0x08
def NICKNAME_LENGTH : Nat := 10
def OT_NAME : Nat := 0x14
def OT_NAME_LENGTH : Nat := 7
def CURRENT_HP : Nat := 0x56
def MAX_HP : Nat := 0x58
def ATTACK : Nat := 0x5A
def DEFENSE : Nat := 0x5C
def SPEED : Nat := 0x5E
def SP_ATTACK : Nat := 0x60
def SP_DEFENSE : Nat := 0x62
def STATUS : Nat := 0x50
def LEVEL : Nat := 0x54

/-- Rust `Pokemon::new` (pokemon.rs): reject buffers below 100 bytes. -/
def new (raw_bytes : List Nat) : Except SaveError Pokemon :=
  if raw_bytes.length < 100 then Except.error SaveError.pokemonTooSmall
  else Except.ok ⟨raw_bytes⟩

/-- Rust `Pokemon::from_bytes` (pokemon.rs): copies the slice and delegates to
`new`. -/
def from_bytes (bytes : List Nat) : Except SaveError Pokemon :=
  new bytes

/-- Getter `personality` (pokemon.rs). -/
def personality (p : Pokemon) : Nat := read_u32_le p.raw_bytes PERSONALITY

/-- Setter `set_personality` (pokemon.rs). -/
def set_personality (p : Pokemon) (value : Nat) : Pokemon :=
  ⟨write_u32_le p.raw_bytes PERSONALITY value⟩

/-- Getter `ot_id` (pokemon.rs). -/
def ot_id (p : Pokemon) : Nat := read_u32_le p.raw_bytes OT_ID

/-- Setter `set_ot_id` (pokemon.rs). -/
def set_ot_id (p : Pokemon) (value : Nat) : Pokemon :=
  ⟨write_u32_le p.raw_bytes OT_ID value⟩

/-- Getter `nickname` (pokemon.rs): decode the ten nickname bytes, clamping
the slice end to the buffer length as the Rust `end.min(len)` does. -/
def nickname (p : Pokemon) : List Char :=
  bytes_to_gba_string
    ((p.raw_bytes.take (min (NICKNAME + NICKNAME_LENGTH) p.raw_bytes.length)).drop NICKNAME)

/-- Getter `ot_name` (pokemon.rs): decode the seven trainer-name bytes,
clamping the slice end to the buffer length. -/
def ot_name (p : Pokemon) : List Char :=
  bytes_to_gba_string
    ((p.raw_bytes.take (min (OT_NAME + OT_NAME_LENGTH) p.raw_bytes.length)).drop OT_NAME)

/-- Getter `current_hp` (pokemon.rs). -/
def current_hp (p : Pokemon) : Nat := read_u16_le p.raw_bytes CURRENT_HP

/-- Setter `set_current_hp` (pokemon.rs). -/
def set_current_hp (p : Pokemon) (value : Nat) : Pokemon :=
  ⟨write_u16_le p.raw_bytes CURRENT_HP value⟩

/-- Getter `max_hp` (pokemon.rs). -/
def max_hp (p : Pokemon) : Nat := read_u16_le p.raw_bytes MAX_HP

/-- Setter `set_max_hp` (pokemon.rs). -/
def set_max_hp (p : Pokemon) (value : Nat) : Pokemon :=
  ⟨write_u16_le p.raw_bytes MAX_HP value⟩

/-- Getter `attack` (pokemon.rs). -/
def attack (p : Pokemon) : Nat := read_u16_le p.raw_bytes ATTACK

/-- Setter `set_attack` (pokemon.rs). -/
def set_attack (p : Pokemon) (value : Nat) : Pokemon :=
  ⟨write_u16_le p.raw_bytes ATTACK value⟩

/-- Getter `defense` (pokemon.rs). -/
def defense (p : Pokemon) : Nat := read_u16_le p.raw_bytes DEFENSE

/-- Setter `set_defense` (pokemon.rs). -/
def set_defense (p : Pokemon) (value : Nat) : Pokemon :=
  ⟨write_u16_le p.raw_bytes DEFENSE value⟩

/-- Getter `speed` (pokemon.rs). -/
def speed (p : Pokemon) : Nat := read_u16_le p.raw_bytes SPEED

/-- Setter `set_speed` (pokemon.rs). -/
def set_speed (p : Pokemon) (value : Nat) : Pokemon :=
  ⟨write_u16_le p.raw_bytes SPEED value⟩

/-- Getter `sp_attack` (pokemon.rs). -/
def sp_attack (p : Pokemon) : Nat := read_u16_le p.raw_bytes SP_ATTACK

/-- Setter `set_sp_attack` (pokemon.rs). -/
def set_sp_attack (p : Pokemon) (value : Nat) : Pokemon :=
  ⟨write_u16_le p.raw_bytes SP_ATTACK value⟩

/-- Getter `sp_defense` (pokemon.rs). -/
def sp_defense (p : Pokemon) : Nat := read_u16_le p.raw_bytes SP_DEFENSE

/-- Setter `set_sp_defense` (pokemon.rs). -/
def set_sp_defense (p : Pokemon) (value : Nat) : Pokemon :=
  ⟨write_u16_le p.raw_bytes SP_DEFENSE value⟩

/-- Getter `level` (pokemon.rs): direct byte read with a zero default when the
offset is out of bounds. -/
def level (p : Pokemon) : Nat :=
  if LEVEL < p.raw_bytes.length then p.raw_bytes.getD LEVEL 0 else 0

/-- Setter `set_level` (pokemon.rs): in-place byte store, dropped when out of
bounds. -/
def set_level (p : Pokemon) (value : Nat) : Pokemon :=
  if LEVEL < p.raw_bytes.length then ⟨p.raw_bytes.set LEVEL value⟩ else p

/-- Getter `status` (pokemon.rs). -/
def status (p : Pokemon) : Nat :=
  if STATUS < p.raw_bytes.length then p.raw_bytes.getD STATUS 0 else 0

/-- Setter `set_status` (pokemon.rs). -/
def set_status (p : Pokemon) (value : Nat) : Pokemon :=
  if STATUS < p.raw_bytes.length then ⟨p.raw_bytes.set STATUS value⟩ else p

/-- Rust `Pokemon::is_valid` (pokemon.rs): at least 100 bytes and a non-zero
personality value. -/
def is_valid (p : Pokemon) : Bool :=
  decide (100 ≤ p.raw_bytes.length) && decide (p.personality ≠ 0)

end Pokemon

/-- Offsets of `SaveLayout` (types.rs). -/
def PARTY_OFFSET : Nat := 0x238
def PARTY_COUNT_OFFSET : Nat := 0x234
def PLAY_TIME_HOURS : Nat := 0x0E
def PLAY_TIME_MINUTES : Nat := 0x10
def PLAY_TIME_SECONDS : Nat := 0x11

/-- Rust struct `PlayTimeData` (types.rs). -/
structure PlayTimeData where
  hours : Nat
  minutes : Nat
  seconds : Nat
  deriving DecidableEq, Repr

/-- Rust struct `SaveData` (types.rs): the parse summary. -/
structure SaveData where
  player_name : List Char
  active_slot : Nat
  play_time : PlayTimeData
  deriving DecidableEq, Repr

/-- Rust struct `SaveParser` (save_parser.rs).  The `HashMap<u16, usize>` of
sector ids to physical indices is modelled as a function to `Option`. -/
structure SaveParser where
  save_data : List Nat
  active_slot_start : Nat
  sector_map : Nat → Option Nat

/-- Insertion into the modelled sector map: `HashMap::insert` overwrites. -/
def mapInsert (m : Nat → Option Nat) (k v : Nat) : Nat → Option Nat :=
  fun x => if x = k then some v else m x

/-- Rust `SaveParser::get_counter_sum` (save_parser.rs): sum of the `counter`
fields of the validating sectors among the given physical indices; the u32
`sum()` wraps in release builds, made explicit with `% 2 ^ 32`. -/
def get_counter_sum (save_data : List Nat) (sector_range : List Nat) : Nat :=
  (((sector_range.map (get_sector_info_internal save_data)).filter
      (fun info => info.valid)).map (fun info => info.counter)).foldl
    (fun acc c => (acc + c) % 4294967296) 0

/-- Rust `SaveParser::determine_active_slot` (save_parser.rs): slot 2
(`active_slot_start = 14`) exactly when its counter sum strictly exceeds
slot 1's; otherwise slot 1 (`active_slot_start = 0`). -/
def determine_active_slot (save_data : List Nat) : Nat :=
  if get_counter_sum save_data (List.range' 14 18) >
      get_counter_sum save_data (List.range 14) then 14 else 0

/-- The iteration of `SaveParser::build_sector_map` (save_parser.rs): walk the
physical indices in ascending order, inserting `id -> index` for each
validating sector (a later duplicate id overwrites an earlier one). -/
def build_sector_map_go (save_data : List Nat) :
    List Nat → (Nat → Option Nat) → (Nat → Option Nat)
  | [], m => m
  | i :: rest, m =>
      let info := get_sector_info_internal save_data i
      build_sector_map_go save_data rest
        (if info.valid then mapInsert m info.id i else m)

/-- Rust `SaveParser::build_sector_map` (save_parser.rs): iterate the active
range, `0..14` for slot 1 and `14..32` for slot 2. -/
def build_sector_map (save_data : List Nat) (active_slot_start : Nat) :
    Nat → Option Nat :=
  build_sector_map_go save_data
    (if active_slot_start = 0 then List.range 14 else List.range' 14 18)
    (fun _ => none)

/-- Rust `SaveParser::new` followed by `load_save_data` (save_parser.rs):
reject buffers below 131072 bytes, otherwise store the data, determine the
active slot and build the sector map. -/
def load_save_data (data : List Nat) : Except SaveError SaveParser :=
  if data.length < 131072 then Except.error SaveError.inputTooSmall
  else
    let start := determine_active_slot data
    Except.ok ⟨data, start, build_sector_map data start⟩

/-- Rust `SaveParser::get_active_slot` (save_parser.rs): 1 for
`active_slot_start = 0`, else 2. -/
def get_active_slot (p : SaveParser) : Nat :=
  if p.active_slot_start = 0 then 1 else 2

/-- Overwrite `src.length` bytes of `dst` starting at `off`: the model of the
Rust slice assignment `dst[off..off + src.len()].copy_from_slice(src)`. -/
def writeSlice (dst : List Nat) (off : Nat) (src : List Nat) : List Nat :=
  dst.take off ++ src ++ dst.drop (off + src.length)

/-- One iteration of the `for sector_id in 1..=4` loop of
`SaveParser::extract_saveblock1` (save_parser.rs): when the id is mapped, copy
that sector's data region into the chunk at `(sector_id - 1) * 3968`. -/
def b1Step (p : SaveParser) (buf : List Nat) (sector_id : Nat) : List Nat :=
  match p.sector_map sector_id with
  | some sector_idx =>
      writeSlice buf ((sector_id - 1) * SECTOR_DATA_SIZE) (sectorData p.save_data sector_idx)
  | none => buf

/-- Rust `SaveParser::extract_saveblock1` (save_parser.rs): a zero-filled
15872-byte buffer; for each logical id 1 through 4 present in the sector map,
the corresponding 3968-byte chunk receives that physical sector's data
region.  The Rust function always returns `Ok`. -/
def extract_saveblock1 (p : SaveParser) : Except SaveError (List Nat) :=
  Except.ok ([1, 2, 3, 4].foldl (b1Step p) (List.replicate (SECTOR_DATA_SIZE * 4) 0))

/-- Rust `SaveParser::extract_saveblock2` (save_parser.rs): the data region of
the physical sector mapped to logical id 0, or `MissingBlock`. -/
def extract_saveblock2 (p : SaveParser) : Except SaveError (List Nat) :=
  match p.sector_map 0 with
  | some sector_idx => Except.ok (sectorData p.save_data sector_idx)
  | none => Except.error SaveError.missingBlock

/-- Fallback player name "Unknown" (save_parser.rs). -/
def unknownName : List Char := ['U', 'n', 'k', 'n', 'o', 'w', 'n']

/-- Rust `SaveParser::parse_player_name` (save_parser.rs): decode the first
eight bytes of SaveBlock2; an undersized buffer or an empty decode falls back
to "Unknown". -/
def parse_player_name (saveblock2_data : List Nat) : List Char :=
  if saveblock2_data.length < 8 then unknownName
  else
    let name := bytes_to_gba_string (saveblock2_data.take 8)
    if name = [] then unknownName else name

/-- Rust `SaveParser::parse_play_time` (save_parser.rs): u16 hours and byte
minutes/seconds at fixed offsets, all zero when the buffer is too short. -/
def parse_play_time (saveblock2_data : List Nat) : PlayTimeData :=
  if saveblock2_data.length < PLAY_TIME_SECONDS + 1 then ⟨0, 0, 0⟩
  else
    { hours := read_u16_le saveblock2_data PLAY_TIME_HOURS
      minutes := if PLAY_TIME_MINUTES < saveblock2_data.length then
          saveblock2_data.getD PLAY_TIME_MINUTES 0 else 0
      seconds := if PLAY_TIME_SECONDS < saveblock2_data.length then
          saveblock2_data.getD PLAY_TIME_SECONDS 0 else 0 }

/-- Rust `SaveParser::parse` (save_parser.rs): require loaded data, reassemble
both blocks, and build the summary.  The active-slot field is the source's
`(self.active_slot_start / 14) as u8`. -/
def parse (p : SaveParser) : Except SaveError SaveData :=
  if p.save_data = [] then Except.error SaveError.noSaveData
  else
    match extract_saveblock1 p with
    | Except.error e => Except.error e
    | Except.ok _saveblock1_data =>
      match extract_saveblock2 p with
      | Except.error e => Except.error e
      | Except.ok saveblock2_data =>
        Except.ok
          { player_name := parse_player_name saveblock2_data
            active_slot := p.active_slot_start / 14
            play_time := parse_play_time saveblock2_data }

/-- The slot loop of `SaveParser::parse_party_pokemon` (save_parser.rs),
written with the remaining iteration count as fuel: `parse_slots b slot n`
models `for s in slot..slot + n` with the source's two `break` conditions
(window past the end of the block; construction failure or invalid record). -/
def parse_slots (saveblock1_data : List Nat) : Nat → Nat → List Pokemon
  | _, 0 => []
  | slot, fuel + 1 =>
      let offset := PARTY_OFFSET + slot * POKEMON_SIZE
      if offset + POKEMON_SIZE > saveblock1_data.length then []
      else
        match Pokemon.from_bytes ((saveblock1_data.drop offset).take POKEMON_SIZE) with
        | Except.error _ => []
        | Except.ok pokemon =>
            if pokemon.is_valid then pokemon :: parse_slots saveblock1_data (slot + 1) fuel
            else []

/-- Rust `SaveParser::parse_party_pokemon` (save_parser.rs): empty roster when
the count offset is out of range; `PartyCountOutOfRange` when the count byte
exceeds 12; empty roster for count 0; otherwise the slot loop from slot 0. -/
def parse_party_pokemon (saveblock1_data : List Nat) : Except SaveError (List Pokemon) :=
  if PARTY_COUNT_OFFSET ≥ saveblock1_data.length then Except.ok []
  else
    let party_count := saveblock1_data.getD PARTY_COUNT_OFFSET 0
    if party_count > 12 then Except.error SaveError.partyCountOutOfRange
    else if party_count = 0 then Except.ok []
    else Except.ok (parse_slots saveblock1_data 0 party_count)

/-- Rust `SaveParser::get_party_pokemon` (save_parser.rs). -/
def get_party_pokemon (p : SaveParser) : Except SaveError (List Pokemon) :=
  if p.save_data = [] then Except.error SaveError.noSaveData
  else
    match extract_saveblock1 p with
    | Except.error e => Except.error e
    | Except.ok saveblock1_data => parse_party_pokemon saveblock1_data

/-! ### Auxiliary definitions used by the verification -/

/-- Unwrapped word sum of the checksum loop: the same 4-byte little-endian
chunks as `checksumWords`, summed without the u32 wraparound. -/
def wordSum : List Nat → Nat
  | b0 :: b1 :: b2 :: b3 :: rest =>
      b0 + 256 * b1 + 65536 * b2 + 16777216 * b3 + wordSum rest
  | _ => 0

/-- A slot of the roster loop that keeps the iteration going: its 100-byte
window fits inside the block and the personality value in that window is
non-zero. -/
def goodSlot (saveblock1_data : List Nat) (slot : Nat) : Prop :=
  PARTY_OFFSET + slot * POKEMON_SIZE + POKEMON_SIZE ≤ saveblock1_data.length ∧
    read_u32_le ((saveblock1_data.drop (PARTY_OFFSET + slot * POKEMON_SIZE)).take POKEMON_SIZE) 0 ≠ 0

instance (b : List Nat) (s : Nat) : Decidable (goodSlot b s) := by
  unfold goodSlot; infer_instance

/-- The roster record the loop builds for a given slot. -/
def mkPartyRec (saveblock1_data : List Nat) (slot : Nat) : Pokemon :=
  ⟨(saveblock1_data.drop (PARTY_OFFSET + slot * POKEMON_SIZE)).take POKEMON_SIZE⟩

/-- Membership of a character in the codec table. -/
def charMapped (c : Char) : Bool :=
  GBA_CHAR_MAP.any (fun p => p.2 == c)

/-- The 3968-byte segment SaveBlock1 should hold for a logical id: the mapped
sector's data region when the id is present in the table, all zeros when
absent. -/
def b1Segment (p : SaveParser) (id : Nat) : List Nat :=
  match p.sector_map id with
  | some idx => sectorData p.save_data idx
  | none => List.replicate 3968 0

/-- An all-zero image of exactly 131072 bytes: no sector carries the format
signature, so no sector validates. -/
def zeroImage : List Nat := List.replicate 131072 0

/-- A parser state whose sector table holds only logical ids 1 and 3 (mapped
to physical sectors 0 and 1), mirroring the spec's `extractB1` test case. -/
def tableTwoIds : SaveParser :=
  ⟨zeroImage, 0, fun k => if k = 1 then some 0 else if k = 3 then some 1 else none⟩

/-- A 131072-byte image whose only valid sector is physical sector 0 with
logical id 0: all bytes zero except the four signature bytes
`25 20 01 08` of sector 0's footer (offsets 4088..4091).  The data region is
all zeros, so the stored checksum 0 matches the computed one. -/
def img1 : List Nat :=
  ((((List.replicate 131072 0).set 4088 37).set 4089 32).set 4090 1).set 4091 8

/-- The parser state `load_save_data` produces for `img1`. -/
def img1Parser : SaveParser :=
  ⟨img1, determine_active_slot img1, build_sector_map img1 (determine_active_slot img1)⟩


/-! ### Byte-buffer helper lemmas -/

theorem getD_set_ne (l : List Nat) (t k a : Nat) (h : t ≠ k) :
    (l.set t a).getD k 0 = l.getD k 0 := by
  simp [List.getD_eq_getElem?_getD, List.getElem?_set_ne h]

theorem getD_set_self (l : List Nat) (t a : Nat) (h : t < l.length) :
    (l.set t a).getD t 0 = a := by
  simp [List.getD_eq_getElem?_getD, List.getElem?_set_self', h]

theorem getD_drop (l : List Nat) (n p : Nat) :
    (l.drop n).getD p 0 = l.getD (n + p) 0 := by
  simp [List.getD_eq_getElem?_getD, List.getElem?_drop]

theorem getD_take (l : List Nat) (n p : Nat) (h : p < n) :
    (l.take n).getD p 0 = l.getD p 0 := by
  simp [List.getD_eq_getElem?_getD, List.getElem?_take_of_lt h]

theorem getD_replicate (n a k : Nat) (h : k < n) :
    (List.replicate n a).getD k 0 = a := by
  simp [List.getD_eq_getElem?_getD, List.getElem?_replicate, h]

theorem getD_lt_of_mem (l : List Nat) (k : Nat) (hk : k < l.length)
    (hb : ∀ b ∈ l, b < 256) : l.getD k 0 < 256 := by
  rw [List.getD_eq_getElem l 0 hk]
  exact hb _ (List.getElem_mem hk)

/-! ### Checksum arithmetic -/

theorem checksumWords_eq (d : List Nat) : checksumWords d = wordSum d % 4294967296 := by
  induction d using wordSum.induct with
  | case1 b0 b1 b2 b3 rest ih => rw [checksumWords, wordSum, ih]; omega
  | case2 d h =>
    cases d with
    | nil => rfl
    | cons a t => cases t with
      | nil => rfl
      | cons a2 t2 => cases t2 with
        | nil => rfl
        | cons a3 t3 => cases t3 with
          | nil => rfl
          | cons a4 t4 => exact absurd rfl (h a a2 a3 a4 t4)

theorem wordSum_set (d : List Nat) (p v : Nat) (h : p < 4 * (d.length / 4)) :
    wordSum (d.set p v) + d.getD p 0 * 2 ^ (8 * (p % 4)) =
    wordSum d + v * 2 ^ (8 * (p % 4)) := by
  induction d using wordSum.induct generalizing p with
  | case1 b0 b1 b2 b3 rest ih =>
    match p with
    | 0 => simp [wordSum, List.set]; ring
    | 1 => simp [wordSum, List.set]; ring
    | 2 => simp [wordSum, List.set]; ring
    | 3 => simp [wordSum, List.set]; ring
    | n + 4 =>
      have hlen : (b0 :: b1 :: b2 :: b3 :: rest).length = rest.length + 4 := by simp
      have h4 : n < 4 * (rest.length / 4) := by rw [hlen] at h; omega
      have hmod : (n + 4) % 4 = n % 4 := by omega
      have := ih n h4
      simp only [List.set, wordSum, List.getD_cons_succ, hmod]
      simp only [List.getD] at this ⊢
      omega
  | case2 d hno =>
    have hlen : d.length ≤ 3 := by
      match d, hno with
      | [], _ => simp
      | [a], _ => simp
      | [a, b], _ => simp
      | [a, b, c], _ => simp
      | a :: b :: c :: e :: t, hno => exact absurd rfl (hno a b c e t)
    exact absurd h (by omega)

/-- Folding `high 16 + low 16, mask to 16` separates values that differ by a
single power of two modulo `2 ^ 32`: the core of the bit-flip detection
property. -/
theorem fold_ne (a K : Nat) (hK : K < 32) :
    ((a + 2 ^ K) % 4294967296 / 65536 + (a + 2 ^ K) % 4294967296 % 65536) % 65536 ≠
    (a % 4294967296 / 65536 + a % 4294967296 % 65536) % 65536 := by
  interval_cases K <;> omega

set_option maxRecDepth 2048 in
theorem xor_pow2 : ∀ b < 256, ∀ j < 8,
    (Nat.testBit b j = true ∧ Nat.xor b (2 ^ j) + 2 ^ j = b) ∨
    (Nat.testBit b j = false ∧ Nat.xor b (2 ^ j) = b + 2 ^ j) := by
  decide

/-- `calculate_sector_checksum` changes whenever one byte inside a full
4-byte chunk grows by a power of two. -/
theorem checksum_changes_add (d : List Nat) (p k : Nat)
    (hp : p < 4 * (d.length / 4)) (hk : k < 8) :
    calculate_sector_checksum (d.set p (d.getD p 0 + 2 ^ k)) ≠
      calculate_sector_checksum d := by
  have hws := wordSum_set d p (d.getD p 0 + 2 ^ k) hp
  rw [add_mul] at hws
  have hsum : wordSum (d.set p (d.getD p 0 + 2 ^ k)) =
      wordSum d + 2 ^ k * 2 ^ (8 * (p % 4)) := by omega
  have hpow : 2 ^ k * 2 ^ (8 * (p % 4)) = 2 ^ (k + 8 * (p % 4)) := (pow_add 2 k _).symm
  have hK : k + 8 * (p % 4) < 32 := by omega
  simp only [calculate_sector_checksum, checksumWords_eq, hsum, hpow]
  exact fold_ne (wordSum d) (k + 8 * (p % 4)) hK

/-- `calculate_sector_checksum` changes whenever one byte inside a full
4-byte chunk shrinks by a power of two. -/
theorem checksum_changes_sub (d : List Nat) (p k : Nat)
    (hp : p < 4 * (d.length / 4)) (hk : k < 8) (hge : 2 ^ k ≤ d.getD p 0) :
    calculate_sector_checksum (d.set p (d.getD p 0 - 2 ^ k)) ≠
      calculate_sector_checksum d := by
  have hws := wordSum_set d p (d.getD p 0 - 2 ^ k) hp
  have hsplit : d.getD p 0 * 2 ^ (8 * (p % 4)) =
      (d.getD p 0 - 2 ^ k) * 2 ^ (8 * (p % 4)) + 2 ^ k * 2 ^ (8 * (p % 4)) := by
    rw [← add_mul]; congr 1; omega
  rw [hsplit] at hws
  have hsum : wordSum d =
      wordSum (d.set p (d.getD p 0 - 2 ^ k)) + 2 ^ k * 2 ^ (8 * (p % 4)) := by omega
  have hpow : 2 ^ k * 2 ^ (8 * (p % 4)) = 2 ^ (k + 8 * (p % 4)) := (pow_add 2 k _).symm
  have hK : k + 8 * (p % 4) < 32 := by omega
  simp only [calculate_sector_checksum, checksumWords_eq, hsum, hpow]
  exact (fold_ne (wordSum (d.set p (d.getD p 0 - 2 ^ k))) (k + 8 * (p % 4)) hK).symm

/-! ### Sector-validation characterization -/

theorem footer_offset_eq (i : Nat) : i * SECTOR_SIZE + SECTOR_SIZE - 12 = i * 4096 + 4084 := by
  simp [SECTOR_SIZE]

theorem get_sector_info_of_footer (sd : List Nat) (i : Nat)
    (hne : sd ≠ []) (hlen : i * 4096 + 4096 ≤ sd.length)
    (hsig : read_u32_le sd (i * 4096 + 4088) = VANILLA_EMERALD_SIGNATURE) :
    get_sector_info_internal sd i =
      ⟨read_u16_le sd (i * 4096 + 4084), read_u16_le sd (i * 4096 + 4086),
        read_u32_le sd (i * 4096 + 4092),
        calculate_sector_checksum (sectorData sd i) = read_u16_le sd (i * 4096 + 4086)⟩ := by
  rw [get_sector_info_internal, if_neg hne, footer_offset_eq]
  rw [if_neg (by omega)]
  have h2 : i * 4096 + 4084 + 2 = i * 4096 + 4086 := by omega
  have h4 : i * 4096 + 4084 + 4 = i * 4096 + 4088 := by omega
  have h8 : i * 4096 + 4084 + 8 = i * 4096 + 4092 := by omega
  rw [h2, h4, h8, if_neg (by simp [hsig])]

theorem valid_sector_inv (sd : List Nat) (i : Nat)
    (h : (get_sector_info_internal sd i).valid = true) :
    sd ≠ [] ∧ i * 4096 + 4096 ≤ sd.length ∧
      read_u32_le sd (i * 4096 + 4088) = VANILLA_EMERALD_SIGNATURE ∧
      calculate_sector_checksum (sectorData sd i) = read_u16_le sd (i * 4096 + 4086) := by
  by_cases hne : sd = []
  · rw [get_sector_info_internal, if_pos hne] at h; simp at h
  · by_cases hlen : i * 4096 + 4096 ≤ sd.length
    · by_cases hsig : read_u32_le sd (i * 4096 + 4088) = VANILLA_EMERALD_SIGNATURE
      · rw [get_sector_info_of_footer sd i hne hlen hsig] at h
        simp only [decide_eq_true_eq] at h
        exact ⟨hne, hlen, hsig, h⟩
      · rw [get_sector_info_internal, if_neg hne, footer_offset_eq,
          if_neg (by omega)] at h
        have h4 : i * 4096 + 4084 + 4 = i * 4096 + 4088 := by omega
        rw [h4, if_pos (by simpa using hsig)] at h
        simp at h
    · rw [get_sector_info_internal, if_neg hne, footer_offset_eq,
        if_pos (by omega)] at h
      simp at h

/-- C2.  Sector validation: when the footer fits in the buffer, carries the
Emerald signature and stores the checksum computed by the defined algorithm
over the sector's 3968-byte data region, `get_sector_info_internal` reports
`valid = true` together with the footer's id, checksum and counter fields. -/
theorem C2_sector_validation (sd : List Nat) (i : Nat)
    (hne : sd ≠ []) (hlen : i * 4096 + 4096 ≤ sd.length)
    (hsig : read_u32_le sd (i * 4096 + 4088) = VANILLA_EMERALD_SIGNATURE)
    (hck : read_u16_le sd (i * 4096 + 4086) = calculate_sector_checksum (sectorData sd i)) :
    get_sector_info_internal sd i =
      ⟨read_u16_le sd (i * 4096 + 4084), read_u16_le sd (i * 4096 + 4086),
        read_u32_le sd (i * 4096 + 4092), true⟩ := by
  rw [get_sector_info_of_footer sd i hne hlen hsig]
  simp [hck]

theorem get_sector_info_bad_sig (sd : List Nat) (i : Nat)
    (hne : sd ≠ []) (hlen : i * 4096 + 4096 ≤ sd.length)
    (hsig : read_u32_le sd (i * 4096 + 4088) ≠ VANILLA_EMERALD_SIGNATURE) :
    get_sector_info_internal sd i =
      ⟨read_u16_le sd (i * 4096 + 4084), read_u16_le sd (i * 4096 + 4086),
        read_u32_le sd (i * 4096 + 4092), false⟩ := by
  rw [get_sector_info_internal, if_neg hne, footer_offset_eq, if_neg (by omega)]
  have h2 : i * 4096 + 4084 + 2 = i * 4096 + 4086 := by omega
  have h4 : i * 4096 + 4084 + 4 = i * 4096 + 4088 := by omega
  have h8 : i * 4096 + 4084 + 8 = i * 4096 + 4092 := by omega
  rw [h2, h4, h8, if_pos (by simpa using hsig)]

/-! ### Evaluation lemmas for the concrete images -/

theorem replicate_getD_zero (k : Nat) : (List.replicate 131072 (0 : Nat)).getD k 0 = 0 := by
  by_cases h : k < 131072
  · exact getD_replicate 131072 0 k h
  · refine List.getD_eq_default _ _ ?_
    rw [List.length_replicate]
    omega

theorem wordSum_of_zero (l : List Nat) (h : ∀ b ∈ l, b = 0) : wordSum l = 0 := by
  induction l using wordSum.induct with
  | case1 b0 b1 b2 b3 rest ih =>
    rw [wordSum, h b0 (by simp), h b1 (by simp), h b2 (by simp), h b3 (by simp),
      ih (fun b hb => h b (by simp [hb]))]
  | case2 d hno =>
    match d, hno with
    | [], _ => rfl
    | [a], _ => rfl
    | [a, b], _ => rfl
    | [a, b, c], _ => rfl
    | a :: b :: c :: e :: t, hno => exact absurd rfl (hno a b c e t)

theorem checksum_zero_data : calculate_sector_checksum (List.replicate 3968 0) = 0 := by
  have h : wordSum (List.replicate 3968 0) = 0 :=
    wordSum_of_zero _ (fun b hb => List.eq_of_mem_replicate hb)
  simp only [calculate_sector_checksum]
  rw [checksumWords_eq, h]

theorem img1_length : img1.length = 131072 := by
  rw [img1, List.length_set, List.length_set, List.length_set, List.length_set,
    List.length_replicate]

theorem img1_ne_nil : img1 ≠ [] := by
  intro h
  have hl := img1_length
  rw [h] at hl
  exact absurd hl (by rw [List.length_nil]; omega)

theorem img1_getD_zero (k : Nat) (h : k < 4088 ∨ 4091 < k) : img1.getD k 0 = 0 := by
  rw [img1, getD_set_ne _ _ _ _ (by omega), getD_set_ne _ _ _ _ (by omega),
    getD_set_ne _ _ _ _ (by omega), getD_set_ne _ _ _ _ (by omega)]
  exact replicate_getD_zero k

theorem img1_getD_4088 : img1.getD 4088 0 = 37 := by
  rw [img1, getD_set_ne _ _ _ _ (by omega), getD_set_ne _ _ _ _ (by omega),
    getD_set_ne _ _ _ _ (by omega)]
  exact getD_set_self _ _ _ (by rw [List.length_replicate]; omega)

theorem img1_getD_4089 : img1.getD 4089 0 = 32 := by
  rw [img1, getD_set_ne _ _ _ _ (by omega), getD_set_ne _ _ _ _ (by omega)]
  exact getD_set_self _ _ _ (by rw [List.length_set, List.length_replicate]; omega)

theorem img1_getD_4090 : img1.getD 4090 0 = 1 := by
  rw [img1, getD_set_ne _ _ _ _ (by omega)]
  exact getD_set_self _ _ _
    (by rw [List.length_set, List.length_set, List.length_replicate]; omega)

theorem img1_getD_4091 : img1.getD 4091 0 = 8 := by
  rw [img1]
  exact getD_set_self _ _ _
    (by rw [List.length_set, List.length_set, List.length_set, List.length_replicate]; omega)

theorem img1_read_sig : read_u32_le img1 4088 = VANILLA_EMERALD_SIGNATURE := by
  rw [read_u32_le, if_pos (by rw [img1_length]; omega)]
  rw [img1_getD_4088]
  rw [show (4088 + 1 : Nat) = 4089 from rfl, img1_getD_4089]
  rw [show (4088 + 2 : Nat) = 4090 from rfl, img1_getD_4090]
  rw [show (4088 + 3 : Nat) = 4091 from rfl, img1_getD_4091]
  rfl

theorem img1_read_u16_zero (o : Nat) (h : o + 2 ≤ 4088 ∨ 4091 < o) (hlen : o + 2 ≤ 131072) :
    read_u16_le img1 o = 0 := by
  rw [read_u16_le, if_pos (by rw [img1_length]; omega)]
  rw [img1_getD_zero o (by omega), img1_getD_zero (o + 1) (by omega)]

theorem img1_read_u32_zero (o : Nat) (h : o + 4 ≤ 4088 ∨ 4091 < o) (hlen : o + 4 ≤ 131072) :
    read_u32_le img1 o = 0 := by
  rw [read_u32_le, if_pos (by rw [img1_length]; omega)]
  rw [img1_getD_zero o (by omega), img1_getD_zero (o + 1) (by omega),
    img1_getD_zero (o + 2) (by omega), img1_getD_zero (o + 3) (by omega)]

theorem img1_sector0_data : sectorData img1 0 = List.replicate 3968 0 := by
  rw [sectorData, img1]
  simp only [SECTOR_SIZE, SECTOR_DATA_SIZE, Nat.zero_mul, List.drop_zero]
  rw [List.set_take, List.set_take, List.set_take, List.set_take]
  rw [List.take_replicate]
  have hmin : min 3968 131072 = 3968 := by omega
  rw [hmin]
  rw [List.set_eq_of_length_le
      (by rw [List.length_set, List.length_set, List.length_set, List.length_replicate]; omega),
    List.set_eq_of_length_le
      (by rw [List.length_set, List.length_set, List.length_replicate]; omega),
    List.set_eq_of_length_le (by rw [List.length_set, List.length_replicate]; omega),
    List.set_eq_of_length_le (by rw [List.length_replicate]; omega)]

theorem img1_sector0_info : get_sector_info_internal img1 0 = ⟨0, 0, 0, true⟩ := by
  rw [get_sector_info_of_footer img1 0 img1_ne_nil (by rw [img1_length]; omega)
    (by simpa using img1_read_sig)]
  rw [show (0 * 4096 + 4084 : Nat) = 4084 from rfl, show (0 * 4096 + 4086 : Nat) = 4086 from rfl,
    show (0 * 4096 + 4092 : Nat) = 4092 from rfl]
  rw [img1_read_u16_zero 4084 (by omega) (by omega), img1_read_u16_zero 4086 (by omega) (by omega),
    img1_read_u32_zero 4092 (by omega) (by omega)]
  rw [show sectorData img1 0 = List.replicate 3968 0 from img1_sector0_data, checksum_zero_data]
  simp

theorem img1_sector_info_other (i : Nat) (h1 : 1 ≤ i) (h2 : i < 32) :
    get_sector_info_internal img1 i = ⟨0, 0, 0, false⟩ := by
  have hlen : i * 4096 + 4096 ≤ img1.length := by rw [img1_length]; omega
  have hsig : read_u32_le img1 (i * 4096 + 4088) = 0 :=
    img1_read_u32_zero _ (by omega) (by omega)
  rw [get_sector_info_bad_sig img1 i img1_ne_nil hlen (by rw [hsig]; simp [VANILLA_EMERALD_SIGNATURE])]
  rw [img1_read_u16_zero _ (by omega) (by omega), img1_read_u16_zero _ (by omega) (by omega),
    img1_read_u32_zero _ (by omega) (by omega)]

/-- C2 witness: physical sector 0 of the concrete image `img1` satisfies the
hypotheses and validates. -/
theorem C2_sector_validation_witness :
    img1 ≠ [] ∧ 0 * 4096 + 4096 ≤ img1.length ∧
      read_u32_le img1 (0 * 4096 + 4088) = VANILLA_EMERALD_SIGNATURE ∧
      read_u16_le img1 (0 * 4096 + 4086) = calculate_sector_checksum (sectorData img1 0) ∧
      get_sector_info_internal img1 0 =
        ⟨read_u16_le img1 (0 * 4096 + 4084), read_u16_le img1 (0 * 4096 + 4086),
          read_u32_le img1 (0 * 4096 + 4092), true⟩ := by
  have h1 : img1 ≠ [] := img1_ne_nil
  have h2 : 0 * 4096 + 4096 ≤ img1.length := by rw [img1_length]; omega
  have h3 : read_u32_le img1 (0 * 4096 + 4088) = VANILLA_EMERALD_SIGNATURE := by
    simpa using img1_read_sig
  have h4 : read_u16_le img1 (0 * 4096 + 4086) = calculate_sector_checksum (sectorData img1 0) := by
    rw [show (0 * 4096 + 4086 : Nat) = 4086 from rfl, img1_read_u16_zero 4086 (by omega) (by omega),
      img1_sector0_data, checksum_zero_data]
  exact ⟨h1, h2, h3, h4, C2_sector_validation img1 0 h1 h2 h3 h4⟩

/-! ### Bit-flip detection (C3) -/

theorem read_u16_le_set_ne (l : List Nat) (t a o : Nat) (h1 : t ≠ o) (h2 : t ≠ o + 1) :
    read_u16_le (l.set t a) o = read_u16_le l o := by
  rw [read_u16_le, read_u16_le, List.length_set]
  split
  · rw [getD_set_ne _ _ _ _ h1, getD_set_ne _ _ _ _ h2]
  · rfl

theorem read_u32_le_set_ne (l : List Nat) (t a o : Nat) (h1 : t ≠ o) (h2 : t ≠ o + 1)
    (h3 : t ≠ o + 2) (h4 : t ≠ o + 3) :
    read_u32_le (l.set t a) o = read_u32_le l o := by
  rw [read_u32_le, read_u32_le, List.length_set]
  split
  · rw [getD_set_ne _ _ _ _ h1, getD_set_ne _ _ _ _ h2, getD_set_ne _ _ _ _ h3,
      getD_set_ne _ _ _ _ h4]
  · rfl

theorem sectorData_set (sd : List Nat) (i p a : Nat) (hp : p < 3968) :
    sectorData (sd.set (i * 4096 + p) a) i = (sectorData sd i).set p a := by
  simp only [sectorData, SECTOR_SIZE, SECTOR_DATA_SIZE]
  rw [List.drop_set, if_neg (by omega)]
  have hsub : i * 4096 + p - i * 4096 = p := by omega
  rw [hsub, List.set_take]

theorem sectorData_length (sd : List Nat) (i : Nat) (h : i * 4096 + 3968 ≤ sd.length) :
    (sectorData sd i).length = 3968 := by
  simp only [sectorData, SECTOR_SIZE, SECTOR_DATA_SIZE, List.length_take, List.length_drop]
  omega

theorem sectorData_getD (sd : List Nat) (i p : Nat) (hp : p < 3968) :
    (sectorData sd i).getD p 0 = sd.getD (i * 4096 + p) 0 := by
  simp only [sectorData, SECTOR_SIZE, SECTOR_DATA_SIZE]
  rw [getD_take _ _ _ hp, getD_drop]

/-- C3.  Flipping any single bit of a validating sector's 3968-byte data
region, leaving the footer (stored checksum included) unchanged, makes
validation report `valid = false`. -/
theorem C3_bit_flip_invalidates (sd : List Nat) (i p j : Nat)
    (hbytes : ∀ b ∈ sd, b < 256) (hp : p < 3968) (hj : j < 8)
    (hvalid : (get_sector_info_internal sd i).valid = true) :
    (get_sector_info_internal
      (sd.set (i * 4096 + p) (Nat.xor (sd.getD (i * 4096 + p) 0) (2 ^ j))) i).valid = false := by
  obtain ⟨hne, hlen, hsig, hck⟩ := valid_sector_inv sd i hvalid
  set t := i * 4096 + p with ht
  set b := sd.getD t 0 with hbdef
  set v := Nat.xor b (2 ^ j) with hvdef
  have hlen0 : 0 < sd.length := List.length_pos.mpr hne
  have hlenset : (sd.set t v).length = sd.length := List.length_set sd t v
  have hne' : sd.set t v ≠ [] := by
    intro hc
    rw [hc, List.length_nil] at hlenset
    omega
  have hlen' : i * 4096 + 4096 ≤ (sd.set t v).length := by rw [hlenset]; exact hlen
  have hsig' : read_u32_le (sd.set t v) (i * 4096 + 4088) = VANILLA_EMERALD_SIGNATURE := by
    rw [read_u32_le_set_ne _ _ _ _ (by omega) (by omega) (by omega) (by omega)]
    exact hsig
  have hstored : read_u16_le (sd.set t v) (i * 4096 + 4086) = read_u16_le sd (i * 4096 + 4086) :=
    read_u16_le_set_ne _ _ _ _ (by omega) (by omega)
  have hdata : sectorData (sd.set t v) i = (sectorData sd i).set p v := sectorData_set sd i p v hp
  have hdlen : (sectorData sd i).length = 3968 := sectorData_length sd i (by omega)
  have hdgetD : (sectorData sd i).getD p 0 = b := by rw [sectorData_getD sd i p hp]
  have hb256 : b < 256 := getD_lt_of_mem sd t (by omega) hbytes
  have hp4 : p < 4 * ((sectorData sd i).length / 4) := by rw [hdlen]; omega
  have hchanged : calculate_sector_checksum ((sectorData sd i).set p v) ≠
      calculate_sector_checksum (sectorData sd i) := by
    rcases xor_pow2 b hb256 j hj with ⟨_, hsub⟩ | ⟨_, hadd⟩
    · have hvval : v = (sectorData sd i).getD p 0 - 2 ^ j := by rw [hdgetD]; omega
      have hge : 2 ^ j ≤ (sectorData sd i).getD p 0 := by rw [hdgetD]; omega
      rw [hvval]
      exact checksum_changes_sub (sectorData sd i) p j hp4 hj hge
    · have hvval : v = (sectorData sd i).getD p 0 + 2 ^ j := by rw [hdgetD]; omega
      rw [hvval]
      exact checksum_changes_add (sectorData sd i) p j hp4 hj
  rw [get_sector_info_of_footer (sd.set t v) i hne' hlen' hsig']
  simp only [decide_eq_true_eq, decide_eq_false_iff_not]
  rw [hdata, hstored, ← hck]
  exact hchanged

/-- C3 witness: in the concrete image `img1`, flipping bit 0 of data byte 0 of
the validating sector 0 makes validation fail. -/
theorem C3_bit_flip_invalidates_witness :
    (∀ b ∈ img1, b < 256) ∧ (0 : Nat) < 3968 ∧ (0 : Nat) < 8 ∧
      (get_sector_info_internal img1 0).valid = true ∧
      (get_sector_info_internal
        (img1.set (0 * 4096 + 0) (Nat.xor (img1.getD (0 * 4096 + 0) 0) (2 ^ 0))) 0).valid = false := by
  have hbytes : ∀ b ∈ img1, b < 256 := by
    intro b hb
    rw [img1] at hb
    rcases List.mem_or_eq_of_mem_set hb with hb | rfl
    · rcases List.mem_or_eq_of_mem_set hb with hb | rfl
      · rcases List.mem_or_eq_of_mem_set hb with hb | rfl
        · rcases List.mem_or_eq_of_mem_set hb with hb | rfl
          · rw [List.eq_of_mem_replicate hb]; omega
          · omega
        · omega
      · omega
    · omega
  have hvalid : (get_sector_info_internal img1 0).valid = true := by
    rw [img1_sector0_info]
  exact ⟨hbytes, by omega, by omega, hvalid,
    C3_bit_flip_invalidates img1 0 0 0 hbytes (by omega) (by omega) hvalid⟩

/-! ### Active-slot selection (C4) and load bounds (C9) -/

/-- C4.  For every loaded image, the second physical range `[14,32)` is chosen
as active (`active_slot_start = 14`) exactly when the wrapped sum of counters
over its validating sectors strictly exceeds the sum over `[0,14)`; on a tie
-- validating sectors or none -- the first range is chosen
(`active_slot_start = 0`). -/
theorem C4_slot_selection (data : List Nat) (h : 131072 ≤ data.length) :
    ∃ p : SaveParser, load_save_data data = Except.ok p ∧
      (p.active_slot_start = 14 ↔
        get_counter_sum data (List.range' 14 18) > get_counter_sum data (List.range 14)) ∧
      (¬ get_counter_sum data (List.range' 14 18) > get_counter_sum data (List.range 14) →
        p.active_slot_start = 0) := by
  rw [load_save_data, if_neg (by omega)]
  refine ⟨_, rfl, ?_, ?_⟩
  · show (if get_counter_sum data (List.range' 14 18) > get_counter_sum data (List.range 14)
        then 14 else 0) = 14 ↔ _
    by_cases hgt : get_counter_sum data (List.range' 14 18) > get_counter_sum data (List.range 14)
    · rw [if_pos hgt]
      simp [hgt]
    · rw [if_neg hgt]
      constructor
      · omega
      · intro hgt2
        exact absurd hgt2 hgt
  · intro hle
    show (if get_counter_sum data (List.range' 14 18) > get_counter_sum data (List.range 14)
        then 14 else 0) = 0
    rw [if_neg hle]

/-- C4 witness: the all-zero image loads and, both counter sums being zero,
selects the first range. -/
theorem C4_slot_selection_witness :
    131072 ≤ zeroImage.length ∧
      ∃ p : SaveParser, load_save_data zeroImage = Except.ok p ∧
        (p.active_slot_start = 14 ↔
          get_counter_sum zeroImage (List.range' 14 18) > get_counter_sum zeroImage (List.range 14)) ∧
        (¬ get_counter_sum zeroImage (List.range' 14 18) > get_counter_sum zeroImage (List.range 14) →
          p.active_slot_start = 0) := by
  have hl : 131072 ≤ zeroImage.length := by rw [zeroImage, List.length_replicate]
  exact ⟨hl, C4_slot_selection zeroImage hl⟩

theorem build_sector_map_go_invalid (sd : List Nat) (idxs : List Nat)
    (m : Nat → Option Nat)
    (h : ∀ i ∈ idxs, (get_sector_info_internal sd i).valid = false) :
    build_sector_map_go sd idxs m = m := by
  induction idxs generalizing m with
  | nil => rfl
  | cons i rest ih =>
    rw [build_sector_map_go]
    rw [h i (by simp)]
    exact ih m (fun x hx => h x (by simp [hx]))

theorem build_sector_map_invalid (sd : List Nat) (start : Nat)
    (h : ∀ i, i < 32 → (get_sector_info_internal sd i).valid = false) :
    build_sector_map sd start = fun _ => none := by
  rw [build_sector_map]
  split
  · exact build_sector_map_go_invalid sd _ _
      (fun i hi => h i (by have := List.mem_range.mp hi; omega))
  · refine build_sector_map_go_invalid sd _ _ (fun i hi => h i ?_)
    rw [List.mem_range'] at hi
    omega

/-- C9.  `load_save_data` fails with `InputTooSmall` exactly on buffers
shorter than 131072 bytes; a 131072-byte buffer with no validating sector
loads, produces an empty sector table, and `parse` then fails with
`MissingBlock` because logical id 0 is absent. -/
theorem C9_load_bounds :
    (∀ data : List Nat, data.length < 131072 →
      load_save_data data = Except.error SaveError.inputTooSmall) ∧
    (∀ data : List Nat, 131072 ≤ data.length →
      ∃ p, load_save_data data = Except.ok p) ∧
    (∀ data : List Nat, data.length = 131072 →
      (∀ i, i < 32 → (get_sector_info_internal data i).valid = false) →
      ∃ p, load_save_data data = Except.ok p ∧ (∀ id, p.sector_map id = none) ∧
        parse p = Except.error SaveError.missingBlock) := by
  refine ⟨?_, ?_, ?_⟩
  · intro data hlt
    rw [load_save_data, if_pos hlt]
  · intro data hge
    rw [load_save_data, if_neg (by omega)]
    exact ⟨_, rfl⟩
  · intro data hlen hinv
    rw [load_save_data, if_neg (by omega)]
    refine ⟨_, rfl, ?_, ?_⟩
    · intro id
      rw [build_sector_map_invalid data _ hinv]
    · have hne : data ≠ [] := by
        intro hc
        rw [hc, List.length_nil] at hlen
        omega
      rw [parse, if_neg hne]
      rw [show extract_saveblock1
          ⟨data, determine_active_slot data, build_sector_map data (determine_active_slot data)⟩ =
          Except.ok (([1, 2, 3, 4].foldl _ (List.replicate (SECTOR_DATA_SIZE * 4) 0))) from rfl]
      rw [extract_saveblock2]
      rw [show (⟨data, determine_active_slot data,
          build_sector_map data (determine_active_slot data)⟩ : SaveParser).sector_map =
          build_sector_map data (determine_active_slot data) from rfl]
      rw [build_sector_map_invalid data _ hinv]

/-- C9 witness: a 131071-byte buffer is rejected as too small; the all-zero
131072-byte image loads with an empty sector table and `parse` reports the
missing block. -/
theorem C9_load_bounds_witness :
    load_save_data (List.replicate 131071 0) = Except.error SaveError.inputTooSmall ∧
      ∃ p, load_save_data zeroImage = Except.ok p ∧ (∀ id, p.sector_map id = none) ∧
        parse p = Except.error SaveError.missingBlock := by
  constructor
  · exact C9_load_bounds.1 _ (by rw [List.length_replicate]; omega)
  · refine C9_load_bounds.2.2 zeroImage (by rw [zeroImage, List.length_replicate]) ?_
    intro i hi
    have hne : zeroImage ≠ [] := by
      intro hc
      have : zeroImage.length = 131072 := by rw [zeroImage, List.length_replicate]
      rw [hc, List.length_nil] at this
      omega
    have hlen : i * 4096 + 4096 ≤ zeroImage.length := by
      rw [zeroImage, List.length_replicate]; omega
    have hsig : read_u32_le zeroImage (i * 4096 + 4088) = 0 := by
      rw [zeroImage, read_u32_le, if_pos (by rw [List.length_replicate]; omega)]
      rw [replicate_getD_zero, replicate_getD_zero, replicate_getD_zero, replicate_getD_zero]
    rw [get_sector_info_bad_sig zeroImage i hne hlen
      (by rw [hsig]; simp [VANILLA_EMERALD_SIGNATURE])]

/-! ### SaveBlock1 reassembly (C8) -/

theorem writeSlice_zero (l src : List Nat) :
    writeSlice l 0 src = src ++ l.drop src.length := by
  rw [writeSlice, List.take_zero, List.nil_append, Nat.zero_add]

theorem writeSlice_at (x y src : List Nat) :
    writeSlice (x ++ y) x.length src = x ++ (src ++ y.drop src.length) := by
  rw [writeSlice, List.take_left]
  have hd : (x ++ y).drop (x.length + src.length) = y.drop src.length := by
    rw [← List.drop_drop, List.drop_left]
  rw [hd, List.append_assoc]

theorem b1Step_none (p : SaveParser) (buf : List Nat) (id : Nat)
    (h : p.sector_map id = none) : b1Step p buf id = buf := by
  rw [b1Step, h]

theorem b1Step_some (p : SaveParser) (buf : List Nat) (id idx : Nat)
    (h : p.sector_map id = some idx) :
    b1Step p buf id =
      writeSlice buf ((id - 1) * SECTOR_DATA_SIZE) (sectorData p.save_data idx) := by
  rw [b1Step, h]

theorem b1Segment_length (p : SaveParser) (id : Nat)
    (hmap : ∀ i idx, p.sector_map i = some idx → idx * 4096 + 3968 ≤ p.save_data.length) :
    (b1Segment p id).length = 3968 := by
  rw [b1Segment]
  cases hm : p.sector_map id with
  | none => rw [List.length_replicate]
  | some idx => exact sectorData_length p.save_data idx (hmap id idx hm)

/-- C8.  On any sector table whose entries point at in-bounds sectors,
`extract_saveblock1` never fails and yields exactly 15872 bytes in which each
logical id 1 through 4 present in the table contributes that sector's
3968-byte data region at chunk `(id - 1) * 3968`, and each absent id leaves
its chunk all zero. -/
theorem C8_extract_saveblock1 (p : SaveParser)
    (hmap' : ∀ i idx, p.sector_map i = some idx → idx * 4096 + 3968 ≤ p.save_data.length) :
    ∃ b1, extract_saveblock1 p = Except.ok b1 ∧ b1.length = 15872 ∧
      ∀ id, 1 ≤ id → id ≤ 4 →
        (b1.drop ((id - 1) * 3968)).take 3968 = b1Segment p id := by
  have hs1 : (b1Segment p 1).length = 3968 := b1Segment_length p 1 hmap'
  have hs2 : (b1Segment p 2).length = 3968 := b1Segment_length p 2 hmap'
  have hs3 : (b1Segment p 3).length = 3968 := b1Segment_length p 3 hmap'
  have hs4 : (b1Segment p 4).length = 3968 := b1Segment_length p 4 hmap'
  have h1 : b1Step p (List.replicate 15872 0) 1 =
      b1Segment p 1 ++ List.replicate 11904 0 := by
    cases hm : p.sector_map 1 with
    | none =>
      rw [b1Step_none p _ 1 hm,
        show b1Segment p 1 = List.replicate 3968 0 from by rw [b1Segment, hm],
        show (List.replicate 3968 (0 : Nat) ++ List.replicate 11904 0) =
          List.replicate 15872 0 from (List.replicate_add 3968 11904 0).symm]
    | some idx =>
      have hlen : (sectorData p.save_data idx).length = 3968 :=
        sectorData_length p.save_data idx (hmap' 1 idx hm)
      rw [b1Step_some p _ 1 idx hm,
        show ((1 : Nat) - 1) * SECTOR_DATA_SIZE = 0 from rfl, writeSlice_zero, hlen,
        List.drop_replicate, show (15872 - 3968 : Nat) = 11904 from rfl,
        show b1Segment p 1 = sectorData p.save_data idx from by rw [b1Segment, hm]]
  have h2 : b1Step p (b1Segment p 1 ++ List.replicate 11904 0) 2 =
      b1Segment p 1 ++ (b1Segment p 2 ++ List.replicate 7936 0) := by
    cases hm : p.sector_map 2 with
    | none =>
      rw [b1Step_none p _ 2 hm,
        show b1Segment p 2 = List.replicate 3968 0 from by rw [b1Segment, hm],
        show (List.replicate 3968 (0 : Nat) ++ List.replicate 7936 0) = List.replicate 11904 0 from
          (List.replicate_add 3968 7936 0).symm]
    | some idx =>
      have hlen : (sectorData p.save_data idx).length = 3968 :=
        sectorData_length p.save_data idx (hmap' 2 idx hm)
      have hws : writeSlice (b1Segment p 1 ++ List.replicate 11904 0) 3968
          (sectorData p.save_data idx) =
          b1Segment p 1 ++ (sectorData p.save_data idx ++
            (List.replicate 11904 0).drop (sectorData p.save_data idx).length) := by
        rw [← hs1]
        exact writeSlice_at _ _ _
      rw [b1Step_some p _ 2 idx hm,
        show ((2 : Nat) - 1) * SECTOR_DATA_SIZE = 3968 from rfl, hws, hlen,
        List.drop_replicate, show (11904 - 3968 : Nat) = 7936 from rfl,
        show b1Segment p 2 = sectorData p.save_data idx from by rw [b1Segment, hm]]
  have h3 : b1Step p (b1Segment p 1 ++ (b1Segment p 2 ++ List.replicate 7936 0)) 3 =
      b1Segment p 1 ++ (b1Segment p 2 ++ (b1Segment p 3 ++ List.replicate 3968 0)) := by
    cases hm : p.sector_map 3 with
    | none =>
      rw [b1Step_none p _ 3 hm,
        show b1Segment p 3 = List.replicate 3968 0 from by rw [b1Segment, hm],
        show (List.replicate 3968 (0 : Nat) ++ List.replicate 3968 0) = List.replicate 7936 0 from
          (List.replicate_add 3968 3968 0).symm]
    | some idx =>
      have hlen : (sectorData p.save_data idx).length = 3968 :=
        sectorData_length p.save_data idx (hmap' 3 idx hm)
      have hx : (b1Segment p 1 ++ b1Segment p 2).length = 7936 := by
        rw [List.length_append, hs1, hs2]
      have hws : writeSlice ((b1Segment p 1 ++ b1Segment p 2) ++ List.replicate 7936 0) 7936
          (sectorData p.save_data idx) =
          (b1Segment p 1 ++ b1Segment p 2) ++ (sectorData p.save_data idx ++
            (List.replicate 7936 0).drop (sectorData p.save_data idx).length) := by
        rw [← hx]
        exact writeSlice_at _ _ _
      rw [b1Step_some p _ 3 idx hm, ← List.append_assoc,
        show ((3 : Nat) - 1) * SECTOR_DATA_SIZE = 7936 from rfl, hws, hlen,
        List.drop_replicate, show (7936 - 3968 : Nat) = 3968 from rfl,
        show b1Segment p 3 = sectorData p.save_data idx from by rw [b1Segment, hm],
        List.append_assoc]
  have h4 : b1Step p
        (b1Segment p 1 ++ (b1Segment p 2 ++ (b1Segment p 3 ++ List.replicate 3968 0))) 4 =
      b1Segment p 1 ++ (b1Segment p 2 ++ (b1Segment p 3 ++ b1Segment p 4)) := by
    cases hm : p.sector_map 4 with
    | none =>
      rw [b1Step_none p _ 4 hm,
        show b1Segment p 4 = List.replicate 3968 0 from by rw [b1Segment, hm]]
    | some idx =>
      have hlen : (sectorData p.save_data idx).length = 3968 :=
        sectorData_length p.save_data idx (hmap' 4 idx hm)
      have hx : ((b1Segment p 1 ++ b1Segment p 2) ++ b1Segment p 3).length = 11904 := by
        rw [List.length_append, List.length_append, hs1, hs2, hs3]
      have hws : writeSlice (((b1Segment p 1 ++ b1Segment p 2) ++ b1Segment p 3) ++
            List.replicate 3968 0) 11904 (sectorData p.save_data idx) =
          ((b1Segment p 1 ++ b1Segment p 2) ++ b1Segment p 3) ++ (sectorData p.save_data idx ++
            (List.replicate 3968 0).drop (sectorData p.save_data idx).length) := by
        rw [← hx]
        exact writeSlice_at _ _ _
      rw [b1Step_some p _ 4 idx hm, ← List.append_assoc, ← List.append_assoc,
        show ((4 : Nat) - 1) * SECTOR_DATA_SIZE = 11904 from rfl, hws, hlen,
        List.drop_replicate, show (3968 - 3968 : Nat) = 0 from rfl, List.replicate_zero,
        List.append_nil, show b1Segment p 4 = sectorData p.save_data idx from by
          rw [b1Segment, hm], List.append_assoc, List.append_assoc]
  have hfold : [1, 2, 3, 4].foldl (b1Step p) (List.replicate (SECTOR_DATA_SIZE * 4) 0) =
      b1Segment p 1 ++ (b1Segment p 2 ++ (b1Segment p 3 ++ b1Segment p 4)) := by
    rw [List.foldl_cons, List.foldl_cons, List.foldl_cons, List.foldl_cons, List.foldl_nil]
    rw [show SECTOR_DATA_SIZE * 4 = 15872 from rfl, h1, h2, h3, h4]
  refine ⟨_, rfl, ?_, ?_⟩
  · rw [hfold, List.length_append, List.length_append, List.length_append, hs1, hs2, hs3, hs4]
  · intro id hge hle
    interval_cases id
    · rw [hfold]
      rw [show ((1 : Nat) - 1) * 3968 = 0 from rfl, List.drop_zero]
      exact List.take_left' hs1
    · rw [hfold]
      have hd : (b1Segment p 1 ++ (b1Segment p 2 ++ (b1Segment p 3 ++ b1Segment p 4))).drop 3968 =
          b1Segment p 2 ++ (b1Segment p 3 ++ b1Segment p 4) := by
        rw [← hs1, List.drop_left]
      rw [show ((2 : Nat) - 1) * 3968 = 3968 from rfl, hd]
      exact List.take_left' hs2
    · rw [hfold, ← List.append_assoc]
      have hx : (b1Segment p 1 ++ b1Segment p 2).length = 7936 := by
        rw [List.length_append, hs1, hs2]
      rw [show ((3 : Nat) - 1) * 3968 = 7936 from rfl, ← hx, List.drop_left]
      exact List.take_left' hs3
    · rw [hfold, ← List.append_assoc, ← List.append_assoc]
      have hx : ((b1Segment p 1 ++ b1Segment p 2) ++ b1Segment p 3).length = 11904 := by
        rw [List.length_append, List.length_append, hs1, hs2, hs3]
      rw [show ((4 : Nat) - 1) * 3968 = 11904 from rfl, ← hx, List.drop_left]
      rw [List.take_of_length_le (by rw [hs4])]

/-- C8 witness: on the table holding only logical ids 1 and 3, the hypotheses
hold and the reassembled block has the promised shape. -/
theorem C8_extract_saveblock1_witness :
    (∀ i idx, tableTwoIds.sector_map i = some idx →
      idx * 4096 + 3968 ≤ tableTwoIds.save_data.length) ∧
      ∃ b1, extract_saveblock1 tableTwoIds = Except.ok b1 ∧ b1.length = 15872 ∧
        ∀ id, 1 ≤ id → id ≤ 4 →
          (b1.drop ((id - 1) * 3968)).take 3968 = b1Segment tableTwoIds id := by
  have hmap : ∀ i idx, tableTwoIds.sector_map i = some idx →
      idx * 4096 + 3968 ≤ tableTwoIds.save_data.length := by
    intro i idx h
    have hlen : tableTwoIds.save_data.length = 131072 := by
      rw [show tableTwoIds.save_data = zeroImage from rfl, zeroImage, List.length_replicate]
    rw [hlen]
    rw [show tableTwoIds.sector_map i =
      (if i = 1 then some 0 else if i = 3 then some 1 else none) from rfl] at h
    split_ifs at h
    · cases h
      omega
    · cases h
      omega
  exact ⟨hmap, C8_extract_saveblock1 tableTwoIds hmap⟩

/-! ### Roster parsing (C7) -/

theorem from_bytes_ok (bytes : List Nat) (h : 100 ≤ bytes.length) :
    Pokemon.from_bytes bytes = Except.ok ⟨bytes⟩ := by
  rw [Pokemon.from_bytes, Pokemon.new, if_neg (by omega)]

theorem parse_slots_stop_window (b : List Nat) (slot fuel : Nat)
    (hwin : PARTY_OFFSET + slot * POKEMON_SIZE + POKEMON_SIZE > b.length) :
    parse_slots b slot (fuel + 1) = [] := by
  rw [parse_slots, if_pos hwin]

theorem parse_slots_step (b : List Nat) (slot fuel : Nat)
    (hwin : ¬ PARTY_OFFSET + slot * POKEMON_SIZE + POKEMON_SIZE > b.length) :
    parse_slots b slot (fuel + 1) =
      if (Pokemon.mk ((b.drop (PARTY_OFFSET + slot * POKEMON_SIZE)).take POKEMON_SIZE)).is_valid
      then Pokemon.mk ((b.drop (PARTY_OFFSET + slot * POKEMON_SIZE)).take POKEMON_SIZE) ::
        parse_slots b (slot + 1) fuel
      else [] := by
  rw [parse_slots, if_neg hwin,
    from_bytes_ok _ (by
      rw [List.length_take, List.length_drop]
      simp only [PARTY_OFFSET, POKEMON_SIZE] at hwin ⊢
      omega)]

theorem mkPartyRec_length (b : List Nat) (slot : Nat)
    (hwin : PARTY_OFFSET + slot * POKEMON_SIZE + POKEMON_SIZE ≤ b.length) :
    (mkPartyRec b slot).raw_bytes.length = 100 := by
  rw [mkPartyRec]
  simp only [List.length_take, List.length_drop]
  simp only [PARTY_OFFSET, POKEMON_SIZE] at hwin ⊢
  omega

theorem parse_slots_spec (b : List Nat) (k : Nat) : ∀ slot fuel, k ≤ fuel →
    (∀ j, j < k → goodSlot b (slot + j)) →
    (k = fuel ∨ ¬ goodSlot b (slot + k)) →
    parse_slots b slot fuel = (List.range k).map (fun j => mkPartyRec b (slot + j)) := by
  induction k with
  | zero =>
    intro slot fuel _ _ hstop
    rw [List.range_zero, List.map_nil]
    rcases hstop with hfe | hbad
    · rw [← hfe, parse_slots]
    · cases fuel with
      | zero => rw [parse_slots]
      | succ f =>
        by_cases hwin : PARTY_OFFSET + slot * POKEMON_SIZE + POKEMON_SIZE > b.length
        · exact parse_slots_stop_window b slot f hwin
        · rw [parse_slots_step b slot f hwin]
          have hread : read_u32_le ((b.drop (PARTY_OFFSET + slot * POKEMON_SIZE)).take
              POKEMON_SIZE) 0 = 0 := by
            rw [Nat.add_zero] at hbad
            rw [goodSlot] at hbad
            push_neg at hbad
            simpa using hbad (by omega)
          have hval : (Pokemon.mk ((b.drop (PARTY_OFFSET + slot * POKEMON_SIZE)).take
              POKEMON_SIZE)).is_valid = false := by
            rw [Pokemon.is_valid]
            rw [show (Pokemon.mk ((b.drop (PARTY_OFFSET + slot * POKEMON_SIZE)).take
              POKEMON_SIZE)).personality = read_u32_le ((b.drop (PARTY_OFFSET +
              slot * POKEMON_SIZE)).take POKEMON_SIZE) 0 from rfl, hread]
            simp
          rw [hval]
          simp
  | succ k ih =>
    intro slot fuel hk hgood hstop
    cases fuel with
    | zero => omega
    | succ f =>
      have hg0 : goodSlot b slot := by simpa using hgood 0 (by omega)
      have hwin : ¬ PARTY_OFFSET + slot * POKEMON_SIZE + POKEMON_SIZE > b.length := by
        have := hg0.1
        omega
      rw [parse_slots_step b slot f hwin]
      have hval : (Pokemon.mk ((b.drop (PARTY_OFFSET + slot * POKEMON_SIZE)).take
          POKEMON_SIZE)).is_valid = true := by
        rw [Pokemon.is_valid]
        rw [show (Pokemon.mk ((b.drop (PARTY_OFFSET + slot * POKEMON_SIZE)).take
          POKEMON_SIZE)).personality = read_u32_le ((b.drop (PARTY_OFFSET +
          slot * POKEMON_SIZE)).take POKEMON_SIZE) 0 from rfl]
        have hlen100 : ((b.drop (PARTY_OFFSET + slot * POKEMON_SIZE)).take
            POKEMON_SIZE).length = 100 := by
          rw [List.length_take, List.length_drop]
          simp only [PARTY_OFFSET, POKEMON_SIZE] at hwin ⊢
          omega
        simp [hlen100, hg0.2]
      rw [hval]
      simp only [if_true]
      have hrec : parse_slots b (slot + 1) f =
          (List.range k).map (fun j => mkPartyRec b (slot + 1 + j)) := by
        refine ih (slot + 1) f (by omega) ?_ ?_
        · intro j hj
          have := hgood (j + 1) (by omega)
          rwa [show slot + (j + 1) = slot + 1 + j by omega] at this
        · rcases hstop with hfe | hbad
          · left; omega
          · right
            rwa [show slot + (k + 1) = slot + 1 + k by omega] at hbad
      rw [hrec, List.range_succ_eq_map, List.map_cons, List.map_map]
      congr 1
      apply List.map_congr_left
      intro j _
      simp only [Function.comp]
      rw [show slot + (j + 1) = slot + 1 + j by omega]

/-- C7.  Roster parsing over a 15872-byte SaveBlock1: it fails (with
`PartyCountOutOfRange`) exactly when the count byte at offset 0x234 exceeds
12; count 0 yields an empty roster; for a count in 1..=12 the loop returns
the records accumulated up to the first slot whose window overruns the block
or whose record has personality zero, and all records when no such slot
exists. -/
theorem C7_roster_parsing (b : List Nat) (hlen : b.length = 15872) :
    ((∃ e, parse_party_pokemon b = Except.error e) ↔ b.getD 564 0 > 12) ∧
    (parse_party_pokemon b = Except.error SaveError.partyCountOutOfRange ∨
      ∃ r, parse_party_pokemon b = Except.ok r) ∧
    (b.getD 564 0 = 0 → parse_party_pokemon b = Except.ok []) ∧
    (∀ k, 1 ≤ b.getD 564 0 → b.getD 564 0 ≤ 12 → k ≤ b.getD 564 0 →
      (∀ j, j < k → goodSlot b j) →
      (k = b.getD 564 0 ∨ ¬ goodSlot b k) →
      parse_party_pokemon b = Except.ok ((List.range k).map (mkPartyRec b))) := by
  have hoff : ¬ PARTY_COUNT_OFFSET ≥ b.length := by
    rw [hlen, PARTY_COUNT_OFFSET]
    omega
  have hcnt : b.getD PARTY_COUNT_OFFSET 0 = b.getD 564 0 := by rw [PARTY_COUNT_OFFSET]
  refine ⟨⟨?_, ?_⟩, ?_, ?_, ?_⟩
  · intro ⟨e, he⟩
    rw [parse_party_pokemon, if_neg hoff] at he
    by_cases h12 : b.getD PARTY_COUNT_OFFSET 0 > 12
    · omega
    · rw [if_neg h12] at he
      by_cases h0 : b.getD PARTY_COUNT_OFFSET 0 = 0
      · rw [if_pos h0] at he
        cases he
      · rw [if_neg h0] at he
        cases he
  · intro h12
    rw [parse_party_pokemon, if_neg hoff, if_pos (by omega)]
    exact ⟨_, rfl⟩
  · rw [parse_party_pokemon, if_neg hoff]
    by_cases h12 : b.getD PARTY_COUNT_OFFSET 0 > 12
    · rw [if_pos h12]
      exact Or.inl rfl
    · rw [if_neg h12]
      by_cases h0 : b.getD PARTY_COUNT_OFFSET 0 = 0
      · rw [if_pos h0]
        exact Or.inr ⟨_, rfl⟩
      · rw [if_neg h0]
        exact Or.inr ⟨_, rfl⟩
  · intro h0
    rw [parse_party_pokemon, if_neg hoff, if_neg (by omega), if_pos (by omega)]
  · intro k h1 h12 hk hgood hstop
    rw [parse_party_pokemon, if_neg hoff, if_neg (by omega), if_neg (by omega)]
    rw [parse_slots_spec b k 0 (b.getD PARTY_COUNT_OFFSET 0) (by omega)
      (fun j hj => by simpa using hgood j hj)
      (by
        rcases hstop with h | h
        · left
          omega
        · right
          rw [Nat.zero_add]
          exact h)]
    congr 1
    apply List.map_congr_left
    intro j _
    rw [Nat.zero_add]

/-- C7 witness: an all-zero block has count 0 and parses to an empty roster;
count byte 13 is rejected; count byte 2 over all-zero slot data stops at
slot 0 and returns the empty partial roster. -/
theorem C7_roster_parsing_witness :
    parse_party_pokemon (List.replicate 15872 0) = Except.ok [] ∧
      parse_party_pokemon ((List.replicate 15872 0).set 564 13) =
        Except.error SaveError.partyCountOutOfRange ∧
      parse_party_pokemon ((List.replicate 15872 0).set 564 2) = Except.ok [] := by
  have hlen0 : (List.replicate 15872 (0 : Nat)).length = 15872 := List.length_replicate _ _
  refine ⟨?_, ?_, ?_⟩
  · exact (C7_roster_parsing _ hlen0).2.2.1 (getD_replicate _ _ _ (by omega))
  · have hlen13 : ((List.replicate 15872 (0 : Nat)).set 564 13).length = 15872 := by
      rw [List.length_set, List.length_replicate]
    have hcnt : ((List.replicate 15872 (0 : Nat)).set 564 13).getD 564 0 = 13 :=
      getD_set_self _ _ _ (by rw [List.length_replicate]; omega)
    obtain ⟨e, he⟩ := ((C7_roster_parsing _ hlen13).1).mpr (by rw [hcnt]; omega)
    rcases (C7_roster_parsing _ hlen13).2.1 with herr | ⟨r, hr⟩
    · exact herr
    · rw [he] at hr
      cases hr
  · have hlen2 : ((List.replicate 15872 (0 : Nat)).set 564 2).length = 15872 := by
      rw [List.length_set, List.length_replicate]
    have hcnt2 : ((List.replicate 15872 (0 : Nat)).set 564 2).getD 564 0 = 2 :=
      getD_set_self _ _ _ (by rw [List.length_replicate]; omega)
    have hread : read_u32_le ((((List.replicate 15872 (0 : Nat)).set 564 2).drop
        (PARTY_OFFSET + 0 * POKEMON_SIZE)).take POKEMON_SIZE) 0 = 0 := by
      rw [read_u32_le,
        if_pos (by rw [List.length_take, List.length_drop, hlen2]; simp [PARTY_OFFSET, POKEMON_SIZE])]
      rw [getD_take _ _ _ (by rw [POKEMON_SIZE]; omega), getD_drop,
        getD_take _ _ _ (by rw [POKEMON_SIZE]; omega), getD_drop,
        getD_take _ _ _ (by rw [POKEMON_SIZE]; omega), getD_drop,
        getD_take _ _ _ (by rw [POKEMON_SIZE]; omega), getD_drop]
      rw [getD_set_ne _ _ _ _ (by rw [PARTY_OFFSET, POKEMON_SIZE]; omega),
        getD_set_ne _ _ _ _ (by rw [PARTY_OFFSET, POKEMON_SIZE]; omega),
        getD_set_ne _ _ _ _ (by rw [PARTY_OFFSET, POKEMON_SIZE]; omega),
        getD_set_ne _ _ _ _ (by rw [PARTY_OFFSET, POKEMON_SIZE]; omega)]
      rw [getD_replicate _ _ _ (by rw [PARTY_OFFSET, POKEMON_SIZE]; omega),
        getD_replicate _ _ _ (by rw [PARTY_OFFSET, POKEMON_SIZE]; omega),
        getD_replicate _ _ _ (by rw [PARTY_OFFSET, POKEMON_SIZE]; omega),
        getD_replicate _ _ _ (by rw [PARTY_OFFSET, POKEMON_SIZE]; omega)]
    have hbad : ¬ goodSlot ((List.replicate 15872 (0 : Nat)).set 564 2) 0 := by
      rw [goodSlot]
      push_neg
      intro _
      exact hread
    have h := (C7_roster_parsing _ hlen2).2.2.2 0 (by rw [hcnt2]; omega) (by rw [hcnt2]; omega)
      (by omega) (fun j hj => absurd hj (by omega)) (Or.inr hbad)
    rw [h, List.range_zero, List.map_nil]

/-! ### Roster-record invariants (C10) -/

theorem write_u16_le_length (l : List Nat) (o v : Nat) :
    (write_u16_le l o v).length = l.length := by
  rw [write_u16_le]
  split
  · rw [List.length_set, List.length_set]
  · rfl

theorem write_u32_le_length (l : List Nat) (o v : Nat) :
    (write_u32_le l o v).length = l.length := by
  rw [write_u32_le]
  split
  · rw [List.length_set, List.length_set, List.length_set, List.length_set]
  · rfl

theorem read_u16_le_take100 (l : List Nat) (o : Nat) (hl : 100 ≤ l.length)
    (ho : o + 2 ≤ 100) : read_u16_le (l.take 100) o = read_u16_le l o := by
  rw [read_u16_le, read_u16_le, List.length_take]
  rw [if_pos (by omega), if_pos (by omega)]
  rw [getD_take _ _ _ (by omega), getD_take _ _ _ (by omega)]

theorem read_u32_le_take100 (l : List Nat) (o : Nat) (hl : 100 ≤ l.length)
    (ho : o + 4 ≤ 100) : read_u32_le (l.take 100) o = read_u32_le l o := by
  rw [read_u32_le, read_u32_le, List.length_take]
  rw [if_pos (by omega), if_pos (by omega)]
  rw [getD_take _ _ _ (by omega), getD_take _ _ _ (by omega), getD_take _ _ _ (by omega),
    getD_take _ _ _ (by omega)]

/-- C10.  Roster-record buffer invariant: both constructors reject buffers
below 100 bytes and accept the rest unchanged; every setter preserves the
buffer length; and under the 100-byte invariant every getter reads only the
first 100 bytes (its value on the record equals its value on the record
truncated to 100 bytes). -/
theorem C10_record_invariants :
    (∀ raw : List Nat, raw.length < 100 →
      Pokemon.new raw = Except.error SaveError.pokemonTooSmall ∧
        Pokemon.from_bytes raw = Except.error SaveError.pokemonTooSmall) ∧
    (∀ raw : List Nat, 100 ≤ raw.length →
      Pokemon.new raw = Except.ok ⟨raw⟩ ∧ Pokemon.from_bytes raw = Except.ok ⟨raw⟩) ∧
    (∀ (p : Pokemon) (v : Nat),
      (p.set_personality v).raw_bytes.length = p.raw_bytes.length ∧
      (p.set_ot_id v).raw_bytes.length = p.raw_bytes.length ∧
      (p.set_current_hp v).raw_bytes.length = p.raw_bytes.length ∧
      (p.set_max_hp v).raw_bytes.length = p.raw_bytes.length ∧
      (p.set_attack v).raw_bytes.length = p.raw_bytes.length ∧
      (p.set_defense v).raw_bytes.length = p.raw_bytes.length ∧
      (p.set_speed v).raw_bytes.length = p.raw_bytes.length ∧
      (p.set_sp_attack v).raw_bytes.length = p.raw_bytes.length ∧
      (p.set_sp_defense v).raw_bytes.length = p.raw_bytes.length ∧
      (p.set_level v).raw_bytes.length = p.raw_bytes.length ∧
      (p.set_status v).raw_bytes.length = p.raw_bytes.length) ∧
    (∀ p : Pokemon, 100 ≤ p.raw_bytes.length →
      p.personality = (Pokemon.mk (p.raw_bytes.take 100)).personality ∧
      p.ot_id = (Pokemon.mk (p.raw_bytes.take 100)).ot_id ∧
      p.nickname = (Pokemon.mk (p.raw_bytes.take 100)).nickname ∧
      p.ot_name = (Pokemon.mk (p.raw_bytes.take 100)).ot_name ∧
      p.level = (Pokemon.mk (p.raw_bytes.take 100)).level ∧
      p.status = (Pokemon.mk (p.raw_bytes.take 100)).status ∧
      p.current_hp = (Pokemon.mk (p.raw_bytes.take 100)).current_hp ∧
      p.max_hp = (Pokemon.mk (p.raw_bytes.take 100)).max_hp ∧
      p.attack = (Pokemon.mk (p.raw_bytes.take 100)).attack ∧
      p.defense = (Pokemon.mk (p.raw_bytes.take 100)).defense ∧
      p.speed = (Pokemon.mk (p.raw_bytes.take 100)).speed ∧
      p.sp_attack = (Pokemon.mk (p.raw_bytes.take 100)).sp_attack ∧
      p.sp_defense = (Pokemon.mk (p.raw_bytes.take 100)).sp_defense) := by
  refine ⟨?_, ?_, ?_, ?_⟩
  · intro raw h
    constructor
    · rw [Pokemon.new, if_pos h]
    · rw [Pokemon.from_bytes, Pokemon.new, if_pos h]
  · intro raw h
    constructor
    · rw [Pokemon.new, if_neg (by omega)]
    · rw [Pokemon.from_bytes, Pokemon.new, if_neg (by omega)]
  · intro p v
    refine ⟨?_, ?_, ?_, ?_, ?_, ?_, ?_, ?_, ?_, ?_, ?_⟩
    · exact write_u32_le_length _ _ _
    · exact write_u32_le_length _ _ _
    · exact write_u16_le_length _ _ _
    · exact write_u16_le_length _ _ _
    · exact write_u16_le_length _ _ _
    · exact write_u16_le_length _ _ _
    · exact write_u16_le_length _ _ _
    · exact write_u16_le_length _ _ _
    · exact write_u16_le_length _ _ _
    · rw [Pokemon.set_level]
      split
      · rw [List.length_set]
      · rfl
    · rw [Pokemon.set_status]
      split
      · rw [List.length_set]
      · rfl
  · intro p h
    have htake : (p.raw_bytes.take 100).length = 100 := by
      rw [List.length_take]
      omega
    refine ⟨?_, ?_, ?_, ?_, ?_, ?_, ?_, ?_, ?_, ?_, ?_, ?_, ?_⟩
    · exact (read_u32_le_take100 _ _ h (by rw [Pokemon.PERSONALITY]; omega)).symm
    · exact (read_u32_le_take100 _ _ h (by rw [Pokemon.OT_ID]; omega)).symm
    · rw [Pokemon.nickname, Pokemon.nickname]
      congr 1
      rw [show (Pokemon.mk (p.raw_bytes.take 100)).raw_bytes = p.raw_bytes.take 100 from rfl]
      rw [htake]
      rw [show min (Pokemon.NICKNAME + Pokemon.NICKNAME_LENGTH) p.raw_bytes.length = 18 from by
        rw [Pokemon.NICKNAME, Pokemon.NICKNAME_LENGTH]; omega]
      rw [show min (Pokemon.NICKNAME + Pokemon.NICKNAME_LENGTH) 100 = 18 from by
        rw [Pokemon.NICKNAME, Pokemon.NICKNAME_LENGTH]; omega]
      rw [List.take_take, show min 18 100 = 18 from by omega]
    · rw [Pokemon.ot_name, Pokemon.ot_name]
      congr 1
      rw [show (Pokemon.mk (p.raw_bytes.take 100)).raw_bytes = p.raw_bytes.take 100 from rfl]
      rw [htake]
      rw [show min (Pokemon.OT_NAME + Pokemon.OT_NAME_LENGTH) p.raw_bytes.length = 27 from by
        rw [Pokemon.OT_NAME, Pokemon.OT_NAME_LENGTH]; omega]
      rw [show min (Pokemon.OT_NAME + Pokemon.OT_NAME_LENGTH) 100 = 27 from by
        rw [Pokemon.OT_NAME, Pokemon.OT_NAME_LENGTH]; omega]
      rw [List.take_take, show min 27 100 = 27 from by omega]
    · rw [Pokemon.level, Pokemon.level]
      rw [show (Pokemon.mk (p.raw_bytes.take 100)).raw_bytes = p.raw_bytes.take 100 from rfl]
      rw [htake]
      rw [if_pos (by rw [Pokemon.LEVEL]; omega), if_pos (by rw [Pokemon.LEVEL]; omega)]
      rw [getD_take _ _ _ (by rw [Pokemon.LEVEL]; omega)]
    · rw [Pokemon.status, Pokemon.status]
      rw [show (Pokemon.mk (p.raw_bytes.take 100)).raw_bytes = p.raw_bytes.take 100 from rfl]
      rw [htake]
      rw [if_pos (by rw [Pokemon.STATUS]; omega), if_pos (by rw [Pokemon.STATUS]; omega)]
      rw [getD_take _ _ _ (by rw [Pokemon.STATUS]; omega)]
    · exact (read_u16_le_take100 _ _ h (by rw [Pokemon.CURRENT_HP]; omega)).symm
    · exact (read_u16_le_take100 _ _ h (by rw [Pokemon.MAX_HP]; omega)).symm
    · exact (read_u16_le_take100 _ _ h (by rw [Pokemon.ATTACK]; omega)).symm
    · exact (read_u16_le_take100 _ _ h (by rw [Pokemon.DEFENSE]; omega)).symm
    · exact (read_u16_le_take100 _ _ h (by rw [Pokemon.SPEED]; omega)).symm
    · exact (read_u16_le_take100 _ _ h (by rw [Pokemon.SP_ATTACK]; omega)).symm
    · exact (read_u16_le_take100 _ _ h (by rw [Pokemon.SP_DEFENSE])).symm

/-- C10 witness: the invariant theorem applied to a concrete 99-byte reject,
a concrete 100-byte accept, and the getters of the all-zero record. -/
theorem C10_record_invariants_witness :
    (List.replicate 99 (0 : Nat)).length < 100 ∧
      Pokemon.new (List.replicate 99 0) = Except.error SaveError.pokemonTooSmall ∧
      (100 : Nat) ≤ (List.replicate 100 (0 : Nat)).length ∧
      Pokemon.new (List.replicate 100 0) = Except.ok ⟨List.replicate 100 0⟩ ∧
      ((Pokemon.mk (List.replicate 100 0)).set_level 5).raw_bytes.length =
        (Pokemon.mk (List.replicate 100 0)).raw_bytes.length ∧
      (Pokemon.mk (List.replicate 100 0)).personality =
        (Pokemon.mk ((Pokemon.mk (List.replicate 100 0)).raw_bytes.take 100)).personality := by
  have h99 : (List.replicate 99 (0 : Nat)).length < 100 := by
    rw [List.length_replicate]
    omega
  have h100 : (100 : Nat) ≤ (List.replicate 100 (0 : Nat)).length := by
    rw [List.length_replicate]
  exact ⟨h99, (C10_record_invariants.1 _ h99).1, h100, (C10_record_invariants.2.1 _ h100).1,
    (C10_record_invariants.2.2.1 ⟨List.replicate 100 0⟩ 5).2.2.2.2.2.2.2.2.2.1,
    (C10_record_invariants.2.2.2 ⟨List.replicate 100 0⟩ h100).1⟩

/-! ### Stat formulas (C6) -/

/-- C6 counterexample: at `base = 65535, iv = 31, ev = 0, level = 255` (all in
range for the u16/u8 parameters) the claimed untruncated HP formula gives
334572, but `calculate_hp_stat` casts its u32 result with `as u16` and returns
6892 = 334572 mod 65536. -/
theorem C6_hp_truncation_counterexample :
    calculate_hp_stat 65535 31 0 255 = 6892 ∧
      (2 * 65535 + 31 + 0 / 4) * 255 / 100 + 255 + 10 = 334572 ∧
      calculate_hp_stat 65535 31 0 255 ≠ (2 * 65535 + 31 + 0 / 4) * 255 / 100 + 255 + 10 := by
  refine ⟨by rw [calculate_hp_stat], by norm_num, ?_⟩
  rw [calculate_hp_stat]
  norm_num

theorem floor_cast_mul_div (s a b : Nat) :
    ⌊(s : ℚ) * ((a : ℚ) / (b : ℚ))⌋₊ = s * a / b := by
  rw [mul_div_assoc']
  rw [show (s : ℚ) * (a : ℚ) = ((s * a : Nat) : ℚ) from by push_cast; ring]
  exact Nat.floor_div_nat ((s * a : Nat) : ℚ) b

/-- C6 amended.  The HP stat equals the claimed formula truncated modulo
`2 ^ 16` (the `as u16` cast); each non-HP stat equals the claimed
exact-rational formula saturated at 65535 (a Rust float-to-integer `as` cast
saturates), for each of the three possible nature modifiers; every nature
modifier is one of `11/10`, `9/10`, `1`; and the spec's concrete example
`base = 45, iv = 31, ev = 0, level = 5` gives HP 21. -/
theorem C6_stat_formulas_amended :
    (∀ base iv ev level : Nat,
      calculate_hp_stat base iv ev level =
        ((2 * base + iv + ev / 4) * level / 100 + level + 10) % 65536 ∧
      calculate_stat base iv ev level (11 / 10 : ℚ) =
        min 65535 (((2 * base + iv + ev / 4) * level / 100 + 5) * 11 / 10) ∧
      calculate_stat base iv ev level (9 / 10 : ℚ) =
        min 65535 (((2 * base + iv + ev / 4) * level / 100 + 5) * 9 / 10) ∧
      calculate_stat base iv ev level (1 : ℚ) =
        min 65535 ((2 * base + iv + ev / 4) * level / 100 + 5)) ∧
    (∀ (nature : String) (stat_index : Nat),
      get_nature_modifier nature stat_index = 11 / 10 ∨
        get_nature_modifier nature stat_index = 9 / 10 ∨
        get_nature_modifier nature stat_index = 1) ∧
    calculate_hp_stat 45 31 0 5 = 21 := by
  refine ⟨?_, ?_, by rw [calculate_hp_stat]⟩
  · intro base iv ev level
    refine ⟨rfl, ?_, ?_, ?_⟩
    · rw [calculate_stat,
        show (11 / 10 : ℚ) = ((11 : Nat) : ℚ) / ((10 : Nat) : ℚ) from by norm_num,
        floor_cast_mul_div _ _ _]
    · rw [calculate_stat,
        show (9 / 10 : ℚ) = ((9 : Nat) : ℚ) / ((10 : Nat) : ℚ) from by norm_num,
        floor_cast_mul_div _ _ _]
    · rw [calculate_stat, mul_one, Nat.floor_natCast]
  · intro nature stat_index
    rw [get_nature_modifier]
    by_cases h1 : stat_index = (nature_effects nature).1
    · rw [if_pos h1]
      exact Or.inl rfl
    · rw [if_neg h1]
      by_cases h2 : stat_index = (nature_effects nature).2
      · rw [if_pos h2]
        exact Or.inr (Or.inl rfl)
      · rw [if_neg h2]
        exact Or.inr (Or.inr rfl)

/-! ### Text codec round trip (C5) -/

/-- C5 counterexample: the space character is present in the codec table and
`n = 1 ≥ len(" ")`, yet decoding the encoding of `" "` yields the empty
string, because the decoder trims whitespace. -/
theorem C5_roundtrip_counterexample :
    charMapped ' ' = true ∧ ([' '] : List Char).length ≤ 1 ∧
      bytes_to_gba_string (gba_string_to_bytes [' '] 1) = [] ∧
      bytes_to_gba_string (gba_string_to_bytes [' '] 1) ≠ [' '] := by
  refine ⟨by decide, by decide, by decide, by decide⟩

theorem gba_encode_nil (n : Nat) : gba_string_to_bytes [] n = List.replicate n 255 := by
  induction n with
  | zero => rfl
  | succ m ih => rw [gba_string_to_bytes, ih, List.replicate_succ]

theorem gba_encode_eq (s : List Char) : ∀ n, s.length ≤ n →
    gba_string_to_bytes s n = s.map encodeChar ++ List.replicate (n - s.length) 255 := by
  induction s with
  | nil =>
    intro n _
    rw [gba_encode_nil, List.map_nil, List.nil_append, List.length_nil, Nat.sub_zero]
  | cons c cs ih =>
    intro n hn
    cases n with
    | zero =>
      rw [List.length_cons] at hn
      omega
    | succ m =>
      rw [gba_string_to_bytes, ih m (by rw [List.length_cons] at hn; omega), List.map_cons,
        List.cons_append, List.length_cons, Nat.succ_sub_succ]

theorem table_good : ∀ p ∈ GBA_CHAR_MAP, p.2 ≠ Char.ofNat 0 →
    decodeByte (encodeChar p.2) = some p.2 ∧ encodeChar p.2 ≠ 255 ∧
      ¬(0 < encodeChar p.2 ∧ encodeChar p.2 < 16) := by
  decide

theorem charMapped_exists (c : Char) (h : charMapped c = true) :
    ∃ p ∈ GBA_CHAR_MAP, p.2 = c := by
  rw [charMapped, List.any_eq_true] at h
  obtain ⟨p, hp, hbeq⟩ := h
  exact ⟨p, hp, eq_of_beq hbeq⟩

theorem enc_props (c : Char) (hm : charMapped c = true) (hn : c ≠ Char.ofNat 0) :
    decodeByte (encodeChar c) = some c ∧ encodeChar c ≠ 255 ∧
      ¬(0 < encodeChar c ∧ encodeChar c < 16) := by
  obtain ⟨p, hp, hpc⟩ := charMapped_exists c hm
  have := table_good p hp (by rw [hpc]; exact hn)
  rwa [hpc] at this

theorem takeWhile_ff_encoded (s : List Char) (h : ∀ c ∈ s, encodeChar c ≠ 255) :
    (s.map encodeChar).reverse.takeWhile (fun b => b == 255) = [] := by
  cases hrev : (s.map encodeChar).reverse with
  | nil => rfl
  | cons hd tl =>
    have hmem : hd ∈ (s.map encodeChar).reverse := by rw [hrev]; simp
    rw [List.mem_reverse, List.mem_map] at hmem
    obtain ⟨c, hc, hcenc⟩ := hmem
    rw [List.takeWhile_cons_of_neg]
    simp only [beq_iff_eq]
    rw [← hcenc]
    simpa using h c hc

theorem trailingFFs_encoded (s : List Char) (pad : Nat)
    (h : ∀ c ∈ s, encodeChar c ≠ 255) :
    trailingFFs (s.map encodeChar ++ List.replicate pad 255) = pad := by
  rw [trailingFFs, List.reverse_append, List.reverse_replicate,
    List.takeWhile_append_of_pos (by
      intro a ha
      rw [List.eq_of_mem_replicate ha]
      rfl),
    List.length_append, List.length_replicate, takeWhile_ff_encoded s h, List.length_nil]
  omega

theorem findGarbage_replicate_le2 (pad : Nat) (h : pad ≤ 2) :
    findGarbage (List.replicate pad 255) = none := by
  interval_cases pad <;> decide

theorem findGarbage_encoded (s : List Char) (pad : Nat) (hpad : pad ≤ 2)
    (h : ∀ c ∈ s, encodeChar c ≠ 255) :
    findGarbage (s.map encodeChar ++ List.replicate pad 255) = none := by
  induction s with
  | nil =>
    rw [List.map_nil, List.nil_append]
    exact findGarbage_replicate_le2 pad hpad
  | cons c cs ih =>
    rw [List.map_cons, List.cons_append, findGarbage,
      if_neg (by
        intro hcon
        exact absurd hcon.1 (h c (by simp))),
      ih (fun x hx => h x (by simp [hx])), Option.map_none']

theorem filterMap_encoded (s : List Char)
    (h : ∀ c ∈ s, decodeByte (encodeChar c) = some c) :
    (s.map encodeChar).filterMap decodeByte = s := by
  induction s with
  | nil => rfl
  | cons c cs ih =>
    rw [List.map_cons, List.filterMap_cons, h c (by simp),
      ih (fun x hx => h x (by simp [hx]))]

theorem filterMap_ff (k : Nat) :
    (List.replicate k 255).filterMap decodeByte = [] := by
  induction k with
  | zero => rfl
  | succ m ih =>
    rw [List.replicate_succ, List.filterMap_cons,
      show decodeByte 255 = none from by decide, ih]

theorem dropWhile_id (l : List Char)
    (h : ∀ c, l.head? = some c → isWhitespace c = false) :
    l.dropWhile isWhitespace = l := by
  cases l with
  | nil => rfl
  | cons c cs =>
    rw [List.dropWhile_cons_of_neg]
    rw [h c rfl]
    exact Bool.false_ne_true

theorem rustTrim_id (s : List Char)
    (hh : ∀ c, s.head? = some c → isWhitespace c = false)
    (hl : ∀ c, s.getLast? = some c → isWhitespace c = false) :
    rustTrim s = s := by
  rw [rustTrim, dropWhile_id s hh, dropWhile_id s.reverse
    (fun c hc => hl c (by rwa [List.head?_reverse] at hc)), List.reverse_reverse]

/-- C5 amended.  Decoding after encoding recovers `s` for every string whose
characters are all in the codec table, excluding the null character (its byte
is the padding byte, dropped by decode) and excluding strings that start or
end in whitespace (the decoder trims), for every requested length
`n ≥ len(s)`. -/
theorem C5_roundtrip_amended (s : List Char) (n : Nat)
    (hmem : ∀ c ∈ s, charMapped c = true)
    (hnull : ∀ c ∈ s, c ≠ Char.ofNat 0)
    (hhead : ∀ c, s.head? = some c → isWhitespace c = false)
    (hlast : ∀ c, s.getLast? = some c → isWhitespace c = false)
    (hn : s.length ≤ n) :
    bytes_to_gba_string (gba_string_to_bytes s n) = s := by
  have hprops : ∀ c ∈ s, decodeByte (encodeChar c) = some c ∧ encodeChar c ≠ 255 ∧
      ¬(0 < encodeChar c ∧ encodeChar c < 16) :=
    fun c hc => enc_props c (hmem c hc) (hnull c hc)
  have h255 : ∀ c ∈ s, encodeChar c ≠ 255 := fun c hc => (hprops c hc).2.1
  have hdec : ∀ c ∈ s, decodeByte (encodeChar c) = some c := fun c hc => (hprops c hc).1
  rw [gba_encode_eq s n hn]
  have hmaplen : (s.map encodeChar).length = s.length := List.length_map s encodeChar
  have hlen : (s.map encodeChar ++ List.replicate (n - s.length) 255).length = n := by
    rw [List.length_append, List.length_replicate, hmaplen]
    omega
  have ht : trailingFFs (s.map encodeChar ++ List.replicate (n - s.length) 255) = n - s.length :=
    trailingFFs_encoded s (n - s.length) h255
  by_cases hpad : n - s.length > 2
  · have hend : find_string_end (s.map encodeChar ++ List.replicate (n - s.length) 255) =
        s.length := by
      simp only [find_string_end]
      rw [ht, if_pos hpad, hlen]
      omega
    rw [bytes_to_gba_string, hend, ← hmaplen, List.take_left, filterMap_encoded s hdec,
      rustTrim_id s hhead hlast]
  · have hend : find_string_end (s.map encodeChar ++ List.replicate (n - s.length) 255) =
        n := by
      simp only [find_string_end]
      rw [ht, if_neg hpad, findGarbage_encoded s (n - s.length) (by omega) h255, hlen]
    rw [bytes_to_gba_string, hend, List.take_of_length_le (le_of_eq hlen),
      List.filterMap_append, filterMap_encoded s hdec, filterMap_ff, List.append_nil,
      rustTrim_id s hhead hlast]

/-- C5 witness: the single-character string "A" round-trips through a
3-byte encoding. -/
theorem C5_roundtrip_amended_witness :
    (∀ c ∈ (['A'] : List Char), charMapped c = true) ∧
      (∀ c ∈ (['A'] : List Char), c ≠ Char.ofNat 0) ∧
      (['A'] : List Char).length ≤ 3 ∧
      bytes_to_gba_string (gba_string_to_bytes ['A'] 3) = ['A'] := by
  refine ⟨by decide, by decide, by decide, ?_⟩
  exact C5_roundtrip_amended ['A'] 3 (by decide) (by decide) (by decide) (by decide) (by decide)

/-! ### Active-slot field of the parse summary (C1) -/

theorem foldl_mod_zero (l : List Nat) (h : ∀ x ∈ l, x = 0) :
    l.foldl (fun acc c => (acc + c) % 4294967296) 0 = 0 := by
  induction l with
  | nil => rfl
  | cons a t ih =>
    rw [List.foldl_cons, h a (by simp), show ((0 + 0) % 4294967296 : Nat) = 0 from rfl]
    exact ih (fun x hx => h x (by simp [hx]))

theorem img1_counter_sum (idxs : List Nat) (h : ∀ i ∈ idxs, i < 32) :
    get_counter_sum img1 idxs = 0 := by
  rw [get_counter_sum]
  apply foldl_mod_zero
  intro x hx
  rw [List.mem_map] at hx
  obtain ⟨info, hinfo, hxeq⟩ := hx
  rw [List.mem_filter] at hinfo
  obtain ⟨hmem2, _⟩ := hinfo
  rw [List.mem_map] at hmem2
  obtain ⟨i, hi, hieq⟩ := hmem2
  have hi32 := h i hi
  rw [← hxeq, ← hieq]
  by_cases hi0 : i = 0
  · rw [hi0, img1_sector0_info]
  · rw [img1_sector_info_other i (by omega) hi32]

theorem img1_det : determine_active_slot img1 = 0 := by
  rw [determine_active_slot,
    img1_counter_sum (List.range 14) (fun i hi => by have := List.mem_range.mp hi; omega),
    img1_counter_sum (List.range' 14 18) (fun i hi => by
      have := List.mem_range'.mp hi
      omega)]
  rw [if_neg (by omega)]

theorem img1_map0 : build_sector_map img1 (determine_active_slot img1) 0 = some 0 := by
  rw [img1_det, build_sector_map, if_pos rfl]
  rw [show List.range 14 = 0 :: [1, 2, 3, 4, 5, 6, 7, 8, 9, 10, 11, 12, 13] from rfl]
  rw [build_sector_map_go]
  rw [img1_sector0_info]
  rw [show (if (⟨0, 0, 0, true⟩ : SectorInfo).valid = true
      then mapInsert (fun _ => none) (⟨0, 0, 0, true⟩ : SectorInfo).id 0
      else (fun _ => none)) = mapInsert (fun _ => none) 0 0 from rfl]
  rw [build_sector_map_go_invalid img1 _ _ (by
    intro i hi
    fin_cases hi <;>
      rw [img1_sector_info_other _ (by omega) (by omega)])]
  rfl

theorem parse_player_name_zero : parse_player_name (List.replicate 3968 0) = unknownName := by
  rw [parse_player_name, if_neg (by rw [List.length_replicate]; omega)]
  rw [List.take_replicate, show min 8 3968 = 8 from by omega]
  rw [show bytes_to_gba_string (List.replicate 8 0) = [] from by decide]
  rw [if_pos rfl]

theorem parse_play_time_zero : parse_play_time (List.replicate 3968 0) = ⟨0, 0, 0⟩ := by
  rw [parse_play_time, if_neg (by rw [List.length_replicate, PLAY_TIME_SECONDS]; omega)]
  rw [show read_u16_le (List.replicate 3968 0) PLAY_TIME_HOURS = 0 from by
    rw [read_u16_le, if_pos (by rw [List.length_replicate, PLAY_TIME_HOURS]; omega)]
    rw [PLAY_TIME_HOURS, getD_replicate _ _ _ (by omega), getD_replicate _ _ _ (by omega)]]
  rw [if_pos (by rw [List.length_replicate, PLAY_TIME_MINUTES]; omega),
    if_pos (by rw [List.length_replicate, PLAY_TIME_SECONDS]; omega)]
  rw [PLAY_TIME_MINUTES, PLAY_TIME_SECONDS,
    getD_replicate _ _ _ (by omega), getD_replicate _ _ _ (by omega)]

/-- C1.  Code bug witnessed on `img1`: the image loads, `parse` succeeds, but
the summary's `active_slot` field is the source's `active_slot_start / 14 = 0`
for the first slot, while `get_active_slot` reports 1 for the very same
state -- the summary does not carry the 1-or-2 value the claim requires. -/
theorem parse_eq_of (p : SaveParser) (idx : Nat) (hne : p.save_data ≠ [])
    (hmap : p.sector_map 0 = some idx) :
    parse p = Except.ok ⟨parse_player_name (sectorData p.save_data idx),
      p.active_slot_start / 14, parse_play_time (sectorData p.save_data idx)⟩ := by
  rw [parse, if_neg hne]
  rw [show extract_saveblock1 p = Except.ok ([1, 2, 3, 4].foldl (b1Step p)
    (List.replicate (SECTOR_DATA_SIZE * 4) 0)) from rfl]
  rw [extract_saveblock2, hmap]

theorem img1Parser_save_data : img1Parser.save_data = img1 := by
  simp only [img1Parser]

theorem img1Parser_start : img1Parser.active_slot_start = determine_active_slot img1 := by
  simp only [img1Parser]

theorem img1Parser_map : img1Parser.sector_map =
    build_sector_map img1 (determine_active_slot img1) := by
  simp only [img1Parser]

theorem img1_load : load_save_data img1 = Except.ok img1Parser := by
  rw [load_save_data, if_neg (by rw [img1_length]; omega)]
  simp only [img1Parser]

theorem img1_parse : parse img1Parser = Except.ok ⟨unknownName, 0, ⟨0, 0, 0⟩⟩ := by
  rw [parse_eq_of img1Parser 0
    (by rw [img1Parser_save_data]; exact img1_ne_nil)
    (by rw [img1Parser_map]; exact img1_map0)]
  rw [img1Parser_save_data, img1_sector0_data, parse_player_name_zero, parse_play_time_zero,
    img1Parser_start, img1_det]

theorem img1_get_active : get_active_slot img1Parser = 1 := by
  rw [get_active_slot, img1Parser_start, img1_det, if_pos rfl]

/-- C1.  Code bug witnessed on `img1`: the image loads, `parse` succeeds, but
the summary's `active_slot` field is the source's `active_slot_start / 14 = 0`
for the first slot, while `get_active_slot` reports 1 for the very same
state -- the summary does not carry the 1-or-2 value the claim requires. -/
theorem C1_active_slot_mismatch :
    ∃ (p : SaveParser) (s : SaveData),
      load_save_data img1 = Except.ok p ∧ parse p = Except.ok s ∧
        s.active_slot = 0 ∧ get_active_slot p = 1 ∧ s.active_slot ≠ get_active_slot p := by
  refine ⟨img1Parser, ⟨unknownName, 0, ⟨0, 0, 0⟩⟩, img1_load, img1_parse, rfl,
    img1_get_active, ?_⟩
  rw [img1_get_active]
  decide

end PokemonSave
